import Mathlib

/-!
# Portainer Docker proxy: decorator and proxy factory

A shallow embedding of `api/http/proxy/decorator.go` and of the request
rewriting part of `api/http/proxy/factory.go`, with theorems about them.

Go maps are reference values: `decorateObject` writes into the map it is
given, and `decorateVolumeList` appends that very map to the list it returns.
The embedding therefore passes an explicit heap of map objects around; a Go
value of type `map[string]interface{}` is an address into that heap.

Go strings are modelled as Lean strings. The code below only compares whole
strings and cuts at the ASCII byte `/`, which is a whole character in UTF-8.
-/

namespace Portainer

/-! ## Data model -/

/-- The struct `resourceControlMetadata` of decorator.go (lines 5-11); its fields are
encoded under the JSON keys `Id`, `Users` and `Teams`. -/
structure resourceControlMetadata where
  ID : Int
  Users : List Int
  Teams : List Int
  deriving DecidableEq, Repr

/-- Modelled from the spec: the type `portainer.ResourceControl` is declared outside
the two source files. Section 3 of the spec gives its attributes: a numeric ID, an
ordered list of user IDs, an ordered list of team IDs and the native resource
identifier the record maps to. -/
structure ResourceControl where
  ID : Int
  ResourceID : String
  Users : List Int
  Teams : List Int
  deriving DecidableEq, Repr

/-- Address of a Go map object in the heap. -/
abbrev Ref := Nat

/-- Dynamic values held by a Go `interface{}`: what `encoding/json` decodes into
(`nil`, booleans, numbers, strings, slices and maps) plus the metadata struct that
`decorateObject` stores. A map is held by reference. The payload of a number is
never inspected by the code. -/
inductive Value where
  | null
  | bool (b : Bool)
  | num (n : Int)
  | str (s : String)
  | arr (xs : List Value)
  | mapRef (r : Ref)
  | rcm (m : resourceControlMetadata)

/-- Contents of one `map[string]interface{}`: an unordered finite map, read by key. -/
abbrev Obj := String → Option Value

/-- The map `make(map[string]interface{})` creates. -/
def Obj.empty : Obj := fun _ => none

/-- Assignment `object[k] = v`. -/
def Obj.insert (o : Obj) (k : String) (v : Value) : Obj :=
  fun k' => if k' = k then some v else o k'

/-- The object without key `k` (the builtin `delete(object, k)` applied to a copy). -/
def Obj.erase (o : Obj) (k : String) : Obj :=
  fun k' => if k' = k then none else o k'

/-- Object given by a list of bindings, the first binding of a key winning. -/
def Obj.ofList : List (String × Value) → Obj
  | [] => Obj.empty
  | (k, v) :: rest => fun k' => if k' = k then some v else Obj.ofList rest k'

/-- The heap of map objects: address `r` holds the `r`-th object, and a new map is
allocated at the end. -/
abbrev Heap := List Obj

/-- Allocation `make(map[string]interface{})`: the new heap and the address of the new
(empty) map. -/
def Heap.alloc (h : Heap) : Heap × Ref := (h ++ [Obj.empty], h.length)

/-- The statement `m[k] = v` for the map at address `m`. -/
def Heap.store (h : Heap) (m : Ref) (k : String) (v : Value) : Heap :=
  h.modify (fun o => o.insert k v) m

/-- Errors of the proxy package that the decorator returns. -/
inductive Error where
  | ErrDockerVolumeIdentifierNotFound
  deriving DecidableEq, Repr

/-- How a call of `decorateVolumeList` ends: with a runtime panic (a failed type
assertion), or by returning the Go pair `([]interface{}, error)`, in which `none`
stands for `nil`. -/
inductive Outcome where
  | panicked
  | returned (data : Option (List Value)) (err : Option Error)

/-- Modelled from the spec: the constant `volumeIdentifier` is declared outside the two
source files. The spec's end-to-end scenario identifies the volumes `{"Name":"v1"}` and
`{"Name":"v2"}` by their `Name` field. -/
def volumeIdentifier : String := "Name"

/-- Modelled from the spec: the helper `getResourceControlByResourceID` is declared
outside the two source files. Section 4.3 of the spec: look up a resource-control record
whose native resource identifier matches the given identifier, by linear scan of the
provided control set; the first match by scan order wins; `none` is the nil pointer. -/
def getResourceControlByResourceID (resourceID : String) :
    List ResourceControl → Option ResourceControl
  | [] => none
  | resourceControl :: rest =>
    if resourceID = resourceControl.ResourceID then some resourceControl
    else getResourceControlByResourceID resourceID rest

/-! ## decorator.go -/

/-- The function `decorateObject` (decorator.go lines 36-45): allocate the metadata map,
store the metadata struct under `"ResourceControl"`, store the metadata map under
`"Portainer"` in the given object, and return that same object. -/
def decorateObject (h : Heap) (object : Ref) (resourceControl : ResourceControl) :
    Heap × Ref :=
  let (h1, metadata) := h.alloc
  let h2 := h1.store metadata "ResourceControl"
    (Value.rcm
      { ID := resourceControl.ID, Users := resourceControl.Users, Teams := resourceControl.Teams })
  let h3 := h2.store object "Portainer" (Value.mapRef metadata)
  (h3, object)

/-- The loop of `decorateVolumeList` (decorator.go lines 18-31), with the heap and the
slice `decoratedVolumeData` built so far as loop state. A reference outside the heap
denotes no Go value; the run is then counted as a panic. -/
def decorateVolumeList.loop (resourceControls : List ResourceControl) :
    Heap → List Value → List Value → Heap × Outcome
  | h, decoratedVolumeData, [] => (h, Outcome.returned (some decoratedVolumeData) none)
  | h, decoratedVolumeData, volume :: rest =>
    match volume with
    | Value.mapRef volumeObject =>
      match h[volumeObject]? with
      | none => (h, Outcome.panicked)
      | some fields =>
        match fields volumeIdentifier with
        | none => (h, Outcome.returned none (some Error.ErrDockerVolumeIdentifierNotFound))
        | some Value.null =>
          (h, Outcome.returned none (some Error.ErrDockerVolumeIdentifierNotFound))
        | some (Value.str volumeID) =>
          match getResourceControlByResourceID volumeID resourceControls with
          | some volumeResourceControl =>
            let (h1, decorated) := decorateObject h volumeObject volumeResourceControl
            decorateVolumeList.loop resourceControls h1
              (decoratedVolumeData ++ [Value.mapRef decorated]) rest
          | none =>
            decorateVolumeList.loop resourceControls h
              (decoratedVolumeData ++ [Value.mapRef volumeObject]) rest
        | some _ => (h, Outcome.panicked)
    | _ => (h, Outcome.panicked)

/-- The function `decorateVolumeList` (decorator.go lines 15-34): the heap after the call
and the way the call ended. -/
def decorateVolumeList (h : Heap) (volumeData : List Value)
    (resourceControls : List ResourceControl) : Heap × Outcome :=
  decorateVolumeList.loop resourceControls h [] volumeData

/-! ## factory.go: request rewriting -/

/-- The function `strings.HasSuffix`. -/
def HasSuffix (s suffix : String) : Bool := suffix.data.isSuffixOf s.data

/-- The function `strings.HasPrefix`. -/
def HasPrefix (s pre : String) : Bool := pre.data.isPrefixOf s.data

/-- The slice expression `b[1:]`, used in the source only where `b` starts with `/`. -/
def sliceFrom1 (b : String) : String := String.mk (b.data.drop 1)

/-- The function `singleJoiningSlash` (factory.go lines 87-97). -/
def singleJoiningSlash (a b : String) : String :=
  let aslash := HasSuffix a "/"
  let bslash := HasPrefix b "/"
  if aslash && bslash then a ++ sliceFrom1 b
  else if !aslash && !bslash then a ++ "/" ++ b
  else a ++ b

/-- The fields of `url.URL` that the director reads or writes. -/
structure URL where
  Scheme : String
  Host : String
  Path : String
  RawQuery : String
  deriving DecidableEq, Repr

/-- The type `http.Header`, a `map[string][]string`. -/
abbrev Header := String → Option (List String)

/-- The method `http.Header.Set` at a key that is already in canonical form, as
`"User-Agent"` is: the entry becomes the one-element list holding `value`. -/
def Header.Set (hd : Header) (key value : String) : Header :=
  fun k => if k = key then some [value] else hd k

/-- The fields of `http.Request` that the director reads or writes. -/
structure Request where
  URL : URL
  Host : String
  Header : Header

/-- The closure `director` of `newSingleHostReverseProxyWithHostHeader` (factory.go lines
105-119). `targetQuery` is the variable captured when the proxy was built; `target` is the
URL the captured pointer refers to when the director runs. -/
def director (targetQuery : String) (target : URL) (req : Request) : Request :=
  let url1 := { req.URL with Scheme := target.Scheme }
  let url2 := { url1 with Host := target.Host }
  let url3 := { url2 with Path := singleJoiningSlash target.Path url2.Path }
  let host := url3.Host
  let url4 :=
    if targetQuery = "" ∨ url3.RawQuery = "" then
      { url3 with RawQuery := targetQuery ++ url3.RawQuery }
    else
      { url3 with RawQuery := targetQuery ++ "&" ++ url3.RawQuery }
  let header :=
    match req.Header "User-Agent" with
    | some _ => req.Header
    | none => req.Header.Set "User-Agent" ""
  { URL := url4, Host := host, Header := header }

/-- What a reverse proxy built by `newSingleHostReverseProxyWithHostHeader` (factory.go
lines 103-126) keeps of its target: the query string read when the proxy is built, and
the rewriting function, which reads the target again on every request. -/
structure ReverseProxy where
  targetQuery : String
  Director : URL → Request → Request

/-- The function `newSingleHostReverseProxyWithHostHeader` (factory.go lines 103-126),
as far as request rewriting goes. -/
def newSingleHostReverseProxyWithHostHeader (target : URL) : ReverseProxy :=
  let targetQuery := target.RawQuery
  { targetQuery := targetQuery, Director := director targetQuery }

/-! ## factory.go: building the handlers -/

/-- An `error` value of Go, identified by its message. -/
abbrev GoError := String

/-- The interfaces `portainer.ResourceControlService` and `portainer.TeamService`, which
the factory only hands on: a service is identified by a number. -/
abbrev Service := Nat

/-- The struct `proxyFactory` (factory.go lines 17-20). -/
structure proxyFactory where
  ResourceControlService : Service
  TeamService : Service
  deriving DecidableEq, Repr

/-- Modelled from the spec: the type `tls.Config` as built by the crypto package, which is
outside the two source files. Section 4.1 of the spec: a mutual-TLS client configuration
made from a CA certificate, a client certificate and a client key. -/
structure TLSConfig where
  CACert : String
  Cert : String
  Key : String
  deriving DecidableEq, Repr

/-- The part of `http.Transport` that the factory writes: the field `TLSClientConfig`,
`none` being the nil pointer. -/
structure httpTransport where
  TLSClientConfig : Option TLSConfig
  deriving DecidableEq, Repr

/-- The struct `proxyTransport` with the fields that factory.go sets (lines 40-43 and
120-124); `transport` is a pointer, `none` when it is left unset. -/
structure proxyTransport where
  ResourceControlService : Service
  TeamService : Service
  transport : Option httpTransport
  deriving DecidableEq, Repr

/-- The fields of `portainer.Endpoint` that `newHTTPSProxy` reads (factory.go line 30). -/
structure Endpoint where
  TLSCACertPath : String
  TLSCertPath : String
  TLSKeyPath : String
  deriving DecidableEq, Repr

/-- The `httputil.ReverseProxy` that the factory returns: the rewriting part together with
the `Transport` field (factory.go line 125). -/
structure ProxyHandler extends ReverseProxy where
  Transport : proxyTransport

/-- The method `newSingleHostReverseProxyWithHostHeader` of the factory (factory.go lines
103-126) with the transport it creates: a `proxyTransport` holding the services of the
factory and a new `http.Transport` without TLS configuration. -/
def proxyFactory.newSingleHostReverseProxyWithHostHeader (factory : proxyFactory)
    (target : URL) : ProxyHandler :=
  { toReverseProxy := Portainer.newSingleHostReverseProxyWithHostHeader target,
    Transport :=
      { ResourceControlService := factory.ResourceControlService,
        TeamService := factory.TeamService,
        transport := some { TLSClientConfig := none } } }

/-- The method `newHTTPProxy` (factory.go lines 22-25). The URL is passed by pointer: the
result holds the caller's URL after the call and the handler. -/
def proxyFactory.newHTTPProxy (factory : proxyFactory) (u : URL) : URL × ProxyHandler :=
  let u1 := { u with Scheme := "http" }
  (u1, factory.newSingleHostReverseProxyWithHostHeader u1)

/-- How a call of `newHTTPSProxy` ends: with a runtime panic, or by returning the Go pair
`(http.Handler, error)`, in which `none` stands for `nil`. -/
inductive Built where
  | panicked
  | returned (handler : Option ProxyHandler) (err : Option GoError)

/-- The method `newHTTPSProxy` (factory.go lines 27-37). The function
`crypto.CreateTLSConfiguration`, which is outside the two source files, is the argument
`createTLSConfiguration`; it returns the Go pair `(*tls.Config, error)`. The result holds
the caller's URL after the call and the way the call ended. -/
def proxyFactory.newHTTPSProxy
    (createTLSConfiguration : String → String → String → Option TLSConfig × Option GoError)
    (factory : proxyFactory) (u : URL) (endpoint : Endpoint) : URL × Built :=
  let u1 := { u with Scheme := "https" }
  let proxy := factory.newSingleHostReverseProxyWithHostHeader u1
  let (config, err) :=
    createTLSConfiguration endpoint.TLSCACertPath endpoint.TLSCertPath endpoint.TLSKeyPath
  match err with
  | some e => (u1, Built.returned none (some e))
  | none =>
    match proxy.Transport.transport with
    | none => (u1, Built.panicked)
    | some t =>
      let t1 := { t with TLSClientConfig := config }
      (u1, Built.returned
        (some { proxy with Transport := { proxy.Transport with transport := some t1 } }) none)

/-- Modelled from the spec: the function `crypto.CreateTLSConfiguration` is outside the two
source files. Section 4.1 of the spec: the configuration is built from a CA certificate, a
client certificate and a client key whose paths the caller supplies, and building fails
if the material cannot be loaded or assembled into a valid client configuration.
`readFile` is the file system and `assemble` the assembling step. -/
def CreateTLSConfiguration (readFile : String → Option String)
    (assemble : String → String → String → Option TLSConfig)
    (caCertPath certPath keyPath : String) : Option TLSConfig × Option GoError :=
  match readFile caCertPath, readFile certPath, readFile keyPath with
  | some ca, some cert, some key =>
    match assemble ca cert key with
    | some config => (some config, none)
    | none => (none, some "TLS material cannot be assembled")
  | _, _, _ => (none, some "TLS material cannot be loaded")

/-! ## factory.go: the unix socket handler -/

/-- The struct `unixSocketHandler` (factory.go lines 47-50). -/
structure unixSocketHandler where
  path : String
  transport : proxyTransport
  deriving DecidableEq, Repr

/-- The method `newSocketProxy` (factory.go lines 39-44). -/
def proxyFactory.newSocketProxy (factory : proxyFactory) (path : String) : unixSocketHandler :=
  { path := path,
    transport :=
      { ResourceControlService := factory.ResourceControlService,
        TeamService := factory.TeamService,
        transport := none } }

/-- A connection returned by `net.Dial`, identified by a number. -/
abbrev Conn := Nat

/-- The body of an upstream response as a stream: the bytes it yields, and the error the
reader meets after them in place of the end of the stream, if any. -/
structure Body where
  data : List Nat
  readErr : Option GoError
  deriving DecidableEq, Repr

/-- The fields of the upstream `http.Response` that the handler uses. `Header` lists the
entries of the header map in the order in which `range` visits them. -/
structure Response where
  StatusCode : Nat
  Header : List (String × List String)
  Body : Body
  deriving DecidableEq, Repr

/-- What the handler does to the world, in order: calls on the `http.ResponseWriter` and
the deferred closing of the upstream body and connection. -/
inductive Effect where
  | errorResponse (err : GoError) (code : Nat)
  | headerAdd (key value : String)
  | write (bytes : List Nat)
  | closeBody
  | closeConn
  deriving DecidableEq, Repr

/-- The environment of one run of the handler: the results of `net.Dial` and of
`ClientConn.Do`, the method `proxyDockerRequests` of the transport (which is outside the
two source files; it may change the response it is given and returns an error or nil),
and the state of the connection to the client, which either takes every byte or fails
with an error after a number of bytes. -/
structure SocketEnv where
  Dial : String → String → Except GoError Conn
  Do : Conn → Request → Except GoError Response
  proxyDockerRequests : proxyTransport → Request → Response → Response × Option GoError
  clientLimit : Option (Nat × GoError)

/-- The constant `http.StatusInternalServerError`. -/
def StatusInternalServerError : Nat := 500

/-- The constant `http.StatusOK`. -/
def StatusOK : Nat := 200

/-- The function `io.Copy(w, res.Body)`: the bytes that reached the writer and the error
returned. The copy stops at the first failed write to the client; otherwise it delivers the
whole body and returns the error of the reader, if any. -/
def ioCopy (clientLimit : Option (Nat × GoError)) (body : Body) : List Nat × Option GoError :=
  match clientLimit with
  | some (n, err) =>
    if n < body.data.length then (body.data.take n, some err) else (body.data, body.readErr)
  | none => (body.data, body.readErr)

/-- The nested loops of factory.go lines 74-78: one `w.Header().Add(k, v)` per key and
value of the upstream header. -/
def copyHeader : List (String × List String) → List Effect
  | [] => []
  | (k, vv) :: rest => vv.map (fun v => Effect.headerAdd k v) ++ copyHeader rest

/-- The method `unixSocketHandler.ServeHTTP` (factory.go lines 52-82), as the list of its
effects. The call `httperror.WriteErrorResponse(w, err, code, nil)`, which is outside the
two source files, is the effect `errorResponse err code`. -/
def unixSocketHandler.ServeHTTP (env : SocketEnv) (h : unixSocketHandler) (r : Request) :
    List Effect :=
  match env.Dial "unix" h.path with
  | Except.error err => [Effect.errorResponse err StatusInternalServerError]
  | Except.ok conn =>
    match env.Do conn r with
    | Except.error err => [Effect.errorResponse err StatusInternalServerError, Effect.closeConn]
    | Except.ok res =>
      match env.proxyDockerRequests h.transport r res with
      | (_, some err) =>
        [Effect.errorResponse err StatusInternalServerError, Effect.closeBody, Effect.closeConn]
      | (res1, none) =>
        let (written, copyErr) := ioCopy env.clientLimit res1.Body
        copyHeader res1.Header
          ++ (if written = [] then [] else [Effect.write written])
          ++ (match copyErr with
              | some err => [Effect.errorResponse err StatusInternalServerError]
              | none => [])
          ++ [Effect.closeBody, Effect.closeConn]

/-- Modelled from the spec: the status the client receives, given the calls made on the
`http.ResponseWriter`. The helper `httperror.WriteErrorResponse` is outside the two source
files; by the spec it maps a failure to a single user-visible error response, with the
status code it is given. By the contract of `http.ResponseWriter` the first call that
sends the status decides it: a `Write` without an earlier `WriteHeader` sends
`http.StatusOK`, as does the server when the handler returns without either. -/
def clientStatus : List Effect → Nat
  | [] => StatusOK
  | Effect.write _ :: _ => StatusOK
  | Effect.errorResponse _ code :: _ => code
  | _ :: rest => clientStatus rest

/-! ## Vocabulary of the statements -/

/-- An effect that hands a part of the upstream response to the client: a copied header or
written body bytes. -/
def Effect.isUpstream : Effect → Bool
  | Effect.headerAdd _ _ => true
  | Effect.write _ => true
  | _ => false

/-- The error responses among the effects, with their status codes. -/
def errorResponses : List Effect → List (GoError × Nat)
  | [] => []
  | Effect.errorResponse err code :: rest => (err, code) :: errorResponses rest
  | _ :: rest => errorResponses rest


/-- The key under which `decorateObject` stores the metadata map. -/
def portainerKey : String := "Portainer"

/-- A well-formed volume: a map of the heap whose identifying field is a string. -/
def WellFormedVolume (h : Heap) (v : Value) : Prop :=
  ∃ r fields s, v = Value.mapRef r ∧ h[r]? = some fields ∧
    fields volumeIdentifier = some (Value.str s)

/-- A volume lacking the identifying field: a map of the heap in which the key is absent
or bound to `nil`. -/
def LacksIdentifier (h : Heap) (v : Value) : Prop :=
  ∃ r fields, v = Value.mapRef r ∧ h[r]? = some fields ∧
    (fields volumeIdentifier = none ∨ fields volumeIdentifier = some Value.null)

/-- The control that matches an object: the one the lookup returns for the object's
identifier, when that identifier is a string. -/
def matchingControl (resourceControls : List ResourceControl) (fields : Obj) :
    Option ResourceControl :=
  match fields volumeIdentifier with
  | some (Value.str volumeID) => getResourceControlByResourceID volumeID resourceControls
  | _ => none

/-- The metadata map that `decorateObject` builds for a control: the single key
`"ResourceControl"` bound to the control's ID, users and teams. -/
def metadataObject (resourceControl : ResourceControl) : Obj :=
  Obj.empty.insert "ResourceControl"
    (Value.rcm
      { ID := resourceControl.ID, Users := resourceControl.Users, Teams := resourceControl.Teams })

/-- Relation between the heap `h` before and the heap `h'` after the loop has gone through
the well-formed volumes `vs`: every volume of `vs` that matches a control has its
`"Portainer"` key bound to a map allocated during the loop that holds that control's
metadata; every other object of `h` is as it was; the heap has only grown. -/
def DecoratedHeap (resourceControls : List ResourceControl) (h : Heap) (vs : List Value)
    (h' : Heap) : Prop :=
  (∀ r fields rc, Value.mapRef r ∈ vs → h[r]? = some fields →
      matchingControl resourceControls fields = some rc →
      ∃ m, h.length ≤ m ∧ h'[r]? = some (fields.insert portainerKey (Value.mapRef m)) ∧
        h'[m]? = some (metadataObject rc)) ∧
  (∀ r fields, h[r]? = some fields →
      (Value.mapRef r ∉ vs ∨ matchingControl resourceControls fields = none) →
      h'[r]? = some fields) ∧
  h.length ≤ h'.length

/-- The first part of the join in the words of the spec: `a` with one trailing `/` removed if
it has one. -/
def trimTrailingSlash (a : String) : String :=
  if HasSuffix a "/" then String.mk a.data.dropLast else a

/-- The second part of the join in the words of the spec: `b` with one leading `/` removed if
it has one. -/
def trimLeadingSlash (b : String) : String :=
  if HasPrefix b "/" then String.mk (b.data.drop 1) else b

/-! ## Concrete inputs -/

/-- The control of the spec's end-to-end scenario: ID 7 for the volume `v1`, users
`[1, 2]`, no team. -/
def scenarioControl : ResourceControl :=
  { ID := 7, ResourceID := "v1", Users := [1, 2], Teams := [] }

/-- The heap of the spec's end-to-end scenario: the maps `{"Name":"v1"}` and
`{"Name":"v2"}`. -/
def scenarioHeap : Heap :=
  [Obj.ofList [("Name", Value.str "v1")], Obj.ofList [("Name", Value.str "v2")]]

/-- The volume list of the spec's end-to-end scenario. -/
def scenarioVolumes : List Value := [Value.mapRef 0, Value.mapRef 1]

/-- A heap with one volume `{"Name":"v1","Portainer":"old"}` that already has a
`"Portainer"` field. -/
def taggedHeap : Heap :=
  [Obj.ofList [("Name", Value.str "v1"), ("Portainer", Value.str "old")]]

/-- A heap with the volume `{"Name":"v1"}` followed by the volume `{}`, which has no
identifying field. -/
def brokenHeap : Heap := [Obj.ofList [("Name", Value.str "v1")], Obj.empty]

/-- An inbound request `GET http://client.example/containers/json?all=1` with the headers
`Accept: */*` and `User-Agent: curl`. -/
def sampleRequest : Request :=
  { URL := { Scheme := "http", Host := "client.example", Path := "/containers/json",
             RawQuery := "all=1" },
    Host := "client.example",
    Header := fun k =>
      if k = "Accept" then some ["*/*"] else if k = "User-Agent" then some ["curl"] else none }

/-- The same inbound request without a `User-Agent` header and without a query. -/
def bareRequest : Request :=
  { URL := { Scheme := "http", Host := "client.example", Path := "/containers/json",
             RawQuery := "" },
    Host := "client.example",
    Header := fun k => if k = "Accept" then some ["*/*"] else none }

/-- A target URL `tcp://docker.example:2375/v1?x=1`. -/
def sampleTarget : URL :=
  { Scheme := "tcp", Host := "docker.example:2375", Path := "/v1", RawQuery := "x=1" }

/-- Two controls for the same volume `v1`: the control of the scenario, then a control with
ID 8, users `[3]` and teams `[4]`. -/
def duplicateControls : List ResourceControl :=
  [scenarioControl, { ID := 8, ResourceID := "v1", Users := [3], Teams := [4] }]

/-- A factory with the services number 1 and 2. -/
def sampleFactory : proxyFactory := { ResourceControlService := 1, TeamService := 2 }

/-- An endpoint with its three TLS paths. -/
def sampleEndpoint : Endpoint :=
  { TLSCACertPath := "/certs/ca.pem", TLSCertPath := "/certs/cert.pem",
    TLSKeyPath := "/certs/key.pem" }

/-- A file system with the CA certificate and the client certificate of `sampleEndpoint`,
in which the client key does not exist. -/
def missingKeyFiles : String → Option String := fun path =>
  if path = "/certs/ca.pem" then some "CA"
  else if path = "/certs/cert.pem" then some "CERT"
  else none

/-- A file system with the three files of `sampleEndpoint`. -/
def completeFiles : String → Option String := fun path =>
  if path = "/certs/ca.pem" then some "CA"
  else if path = "/certs/cert.pem" then some "CERT"
  else if path = "/certs/key.pem" then some "KEY"
  else none

/-- An assembling step that accepts every material. -/
def assembleAny (ca cert key : String) : Option TLSConfig :=
  some { CACert := ca, Cert := cert, Key := key }

/-- The handler for the socket `/var/run/docker.sock`. -/
def sampleSocketHandler : unixSocketHandler := sampleFactory.newSocketProxy "/var/run/docker.sock"

/-- An upstream response `404` with one header and a body of five bytes. -/
def notFoundResponse : Response :=
  { StatusCode := 404,
    Header := [("Content-Type", ["application/json"])],
    Body := { data := [123, 34, 109, 34, 125], readErr := none } }

/-- An environment in which nothing listens on the socket: the dial fails. -/
def deadSocketEnv : SocketEnv :=
  { Dial := fun _ _ => Except.error "connection refused",
    Do := fun _ _ => Except.ok notFoundResponse,
    proxyDockerRequests := fun _ _ res => (res, none),
    clientLimit := none }

/-- An environment in which dial, round trip and decoration succeed, the upstream answers
with `notFoundResponse`, and the client takes every byte. -/
def notFoundEnv : SocketEnv :=
  { Dial := fun _ _ => Except.ok 0,
    Do := fun _ _ => Except.ok notFoundResponse,
    proxyDockerRequests := fun _ _ res => (res, none),
    clientLimit := none }

/-- The same environment with a client connection that breaks after three bytes. -/
def brokenClientEnv : SocketEnv :=
  { Dial := fun _ _ => Except.ok 0,
    Do := fun _ _ => Except.ok notFoundResponse,
    proxyDockerRequests := fun _ _ res => (res, none),
    clientLimit := some (3, "broken pipe") }

/-! ## Heap lemmas -/

theorem Obj.insert_insert (o : Obj) (k : String) (v w : Value) :
    (o.insert k v).insert k w = o.insert k w := by
  funext k'
  unfold Obj.insert
  split <;> rfl

theorem Obj.insert_other (o : Obj) (k k' : String) (v : Value) (hk : k' ≠ k) :
    (o.insert k v) k' = o k' := by
  unfold Obj.insert
  simp [hk]

theorem Obj.erase_insert (o : Obj) (k : String) (v : Value) :
    (o.insert k v).erase k = o.erase k := by
  funext k'
  unfold Obj.erase Obj.insert
  split <;> rfl

theorem Obj.erase_of_none (o : Obj) (k : String) (hk : o k = none) : o.erase k = o := by
  funext k'
  unfold Obj.erase
  split
  · rename_i he
    rw [he, hk]
  · rfl

theorem matchingControl_insert (rcs : List ResourceControl) (o : Obj) (v : Value) :
    matchingControl rcs (o.insert portainerKey v) = matchingControl rcs o := by
  unfold matchingControl
  rw [Obj.insert_other o portainerKey volumeIdentifier v (by decide)]

theorem matchingControl_metadataObject (rcs : List ResourceControl) (rc : ResourceControl) :
    matchingControl rcs (metadataObject rc) = none := by
  unfold matchingControl metadataObject
  rw [Obj.insert_other _ _ volumeIdentifier _ (by decide)]
  rfl

theorem Heap.getElem?_store (h : Heap) (m : Ref) (k : String) (v : Value) (r : Ref) :
    (h.store m k v)[r]? = if m = r then (h[r]?).map (fun o => o.insert k v) else h[r]? := by
  unfold Heap.store
  rw [List.getElem?_modify]
  by_cases hmr : m = r
  · simp [hmr]
  · simp [hmr]

theorem Heap.length_store (h : Heap) (m : Ref) (k : String) (v : Value) :
    (h.store m k v).length = h.length := by
  unfold Heap.store
  exact List.length_modify _ _ _

theorem decorateObject_snd (h : Heap) (object : Ref) (rc : ResourceControl) :
    (decorateObject h object rc).2 = object := rfl

theorem decorateObject_length (h : Heap) (object : Ref) (rc : ResourceControl) :
    (decorateObject h object rc).1.length = h.length + 1 := by
  simp [decorateObject, Heap.alloc, Heap.length_store]

/-- The decorated object after `decorateObject`. -/
theorem decorateObject_object (h : Heap) (object : Ref) (rc : ResourceControl) (fields : Obj)
    (hobj : h[object]? = some fields) :
    (decorateObject h object rc).1[object]? =
      some (fields.insert portainerKey (Value.mapRef h.length)) := by
  have hlt : object < h.length := (List.getElem?_eq_some.mp hobj).1
  have hne : h.length ≠ object := Nat.ne_of_gt hlt
  simp [decorateObject, Heap.alloc, Heap.getElem?_store, hne,
    List.getElem?_append_left hlt, hobj, portainerKey]

/-- The metadata map allocated by `decorateObject`. -/
theorem decorateObject_metadata (h : Heap) (object : Ref) (rc : ResourceControl)
    (hlt : object < h.length) :
    (decorateObject h object rc).1[h.length]? = some (metadataObject rc) := by
  have hne : object ≠ h.length := Nat.ne_of_lt hlt
  simp [decorateObject, Heap.alloc, Heap.getElem?_store, hne, metadataObject]

/-- Every other object of the heap is untouched by `decorateObject`. -/
theorem decorateObject_frame (h : Heap) (object : Ref) (rc : ResourceControl) (r : Ref)
    (hr : r < h.length) (hne : r ≠ object) :
    (decorateObject h object rc).1[r]? = h[r]? := by
  have h1 : h.length ≠ r := Nat.ne_of_gt hr
  have h2 : object ≠ r := fun e => hne e.symm
  simp [decorateObject, Heap.alloc, Heap.getElem?_store, h1, h2,
    List.getElem?_append_left hr]

/-! ## The loop on well-formed volumes -/

/-- A well-formed volume stays well-formed when an object of the heap is decorated. -/
theorem WellFormedVolume.decorateObject {h : Heap} {v : Value} (hv : WellFormedVolume h v)
    (object : Ref) (rc : ResourceControl) (fields0 : Obj) (hobj : h[object]? = some fields0) :
    WellFormedVolume (Portainer.decorateObject h object rc).1 v := by
  obtain ⟨r, fields, s, rfl, hr, hs⟩ := hv
  by_cases hro : r = object
  · subst hro
    refine ⟨r, _, s, rfl, decorateObject_object h r rc fields hr, ?_⟩
    rw [Obj.insert_other _ _ _ _ (by decide)]
    exact hs
  · refine ⟨r, fields, s, rfl, ?_, hs⟩
    rw [decorateObject_frame h object rc r (List.getElem?_eq_some.mp hr).1 hro]
    exact hr

/-- One step of the loop on a well-formed volume that matches a control. -/
theorem loop_cons_some (rcs : List ResourceControl) (h : Heap) (acc rest : List Value)
    (r : Ref) (fields : Obj) (s : String) (rc : ResourceControl)
    (hr : h[r]? = some fields) (hs : fields volumeIdentifier = some (Value.str s))
    (hrc : getResourceControlByResourceID s rcs = some rc) :
    decorateVolumeList.loop rcs h acc (Value.mapRef r :: rest) =
      decorateVolumeList.loop rcs (decorateObject h r rc).1 (acc ++ [Value.mapRef r]) rest := by
  rw [decorateVolumeList.loop]
  simp only [hr, hs, hrc]
  rfl

/-- One step of the loop on a well-formed volume that matches no control. -/
theorem loop_cons_none (rcs : List ResourceControl) (h : Heap) (acc rest : List Value)
    (r : Ref) (fields : Obj) (s : String)
    (hr : h[r]? = some fields) (hs : fields volumeIdentifier = some (Value.str s))
    (hrc : getResourceControlByResourceID s rcs = none) :
    decorateVolumeList.loop rcs h acc (Value.mapRef r :: rest) =
      decorateVolumeList.loop rcs h (acc ++ [Value.mapRef r]) rest := by
  rw [decorateVolumeList.loop]
  simp only [hr, hs, hrc]

/-- One step of the loop on a volume that lacks the identifying field. -/
theorem loop_cons_lacks (rcs : List ResourceControl) (h : Heap) (acc rest : List Value)
    (v : Value) (hv : LacksIdentifier h v) :
    decorateVolumeList.loop rcs h acc (v :: rest) =
      (h, Outcome.returned none (some Error.ErrDockerVolumeIdentifierNotFound)) := by
  obtain ⟨r, fields, rfl, hr, hs | hs⟩ := hv
  · rw [decorateVolumeList.loop]
    simp only [hr, hs]
  · rw [decorateVolumeList.loop]
    simp only [hr, hs]

theorem matchingControl_of_identifier (rcs : List ResourceControl) (fields : Obj) (s : String)
    (hs : fields volumeIdentifier = some (Value.str s)) :
    matchingControl rcs fields = getResourceControlByResourceID s rcs := by
  unfold matchingControl
  rw [hs]

/-- The loop goes through a well-formed front part `pre` of the list without returning:
it reaches the remaining part with `pre` appended to the decorated list, in a heap
related to the initial one by `DecoratedHeap`. -/
theorem loop_wellFormed_append (rcs : List ResourceControl) :
    ∀ (pre : List Value) (h : Heap) (acc rest : List Value),
      (∀ v ∈ pre, WellFormedVolume h v) →
      ∃ h', DecoratedHeap rcs h pre h' ∧
        decorateVolumeList.loop rcs h acc (pre ++ rest) =
          decorateVolumeList.loop rcs h' (acc ++ pre) rest := by
  intro pre
  induction pre with
  | nil =>
    intro h acc rest _
    refine ⟨h, ⟨?_, ?_, le_refl _⟩, by simp⟩
    · intro r fields rc hmem
      simp at hmem
    · intro r fields hr _
      exact hr
  | cons v pre ih =>
    intro h acc rest hwf
    have hv : WellFormedVolume h v := hwf v (List.mem_cons_self _ _)
    obtain ⟨r0, f0, s0, rfl, hr0, hs0⟩ := hv
    have hr0lt : r0 < h.length := (List.getElem?_eq_some.mp hr0).1
    have hm0 := matchingControl_of_identifier rcs f0 s0 hs0
    cases hrc : getResourceControlByResourceID s0 rcs with
    | none =>
      obtain ⟨h', ⟨hA, hB, hC⟩, heq⟩ := ih h (acc ++ [Value.mapRef r0]) rest
        (fun w hw => hwf w (List.mem_cons_of_mem _ hw))
      refine ⟨h', ⟨?_, ?_, hC⟩, ?_⟩
      · intro r fields rc hmem hr hmatch
        rcases List.mem_cons.mp hmem with he | hin
        · have hrr : r = r0 := by injection he
          subst hrr
          rw [hr0] at hr
          have hff : f0 = fields := by injection hr
          subst hff
          rw [hm0, hrc] at hmatch
          cases hmatch
        · exact hA r fields rc hin hr hmatch
      · intro r fields hr hcond
        apply hB r fields hr
        rcases hcond with hnot | hnone
        · exact Or.inl (fun hin => hnot (List.mem_cons_of_mem _ hin))
        · exact Or.inr hnone
      · rw [List.cons_append, loop_cons_none rcs h acc (pre ++ rest) r0 f0 s0 hr0 hs0 hrc, heq]
        simp
    | some rc0 =>
      have hwf1 : ∀ w ∈ pre, WellFormedVolume (decorateObject h r0 rc0).1 w :=
        fun w hw => (hwf w (List.mem_cons_of_mem _ hw)).decorateObject r0 rc0 f0 hr0
      obtain ⟨h', ⟨hA, hB, hC⟩, heq⟩ := ih (decorateObject h r0 rc0).1
        (acc ++ [Value.mapRef r0]) rest hwf1
      have hlen1 := decorateObject_length h r0 rc0
      have hobj1 := decorateObject_object h r0 rc0 f0 hr0
      have hmeta1 := decorateObject_metadata h r0 rc0 hr0lt
      refine ⟨h', ⟨?_, ?_, ?_⟩, ?_⟩
      · intro r fields rc hmem hr hmatch
        by_cases hin : Value.mapRef r ∈ pre
        · by_cases hrr : r = r0
          · subst hrr
            rw [hr0] at hr
            have hff : f0 = fields := by injection hr
            subst hff
            obtain ⟨m, hm, hobj', hmeta'⟩ := hA r _ rc hin hobj1
              (by rw [matchingControl_insert]; exact hmatch)
            refine ⟨m, ?_, ?_, hmeta'⟩
            · rw [hlen1] at hm
              exact Nat.le_of_succ_le hm
            · rw [hobj', Obj.insert_insert]
          · have hr1 : (decorateObject h r0 rc0).1[r]? = some fields := by
              rw [decorateObject_frame h r0 rc0 r (List.getElem?_eq_some.mp hr).1 hrr]
              exact hr
            obtain ⟨m, hm, hobj', hmeta'⟩ := hA r fields rc hin hr1 hmatch
            refine ⟨m, ?_, hobj', hmeta'⟩
            rw [hlen1] at hm
            exact Nat.le_of_succ_le hm
        · have hrr : r = r0 := by
            rcases List.mem_cons.mp hmem with he | hin'
            · injection he
            · exact absurd hin' hin
          subst hrr
          rw [hr0] at hr
          have hff : f0 = fields := by injection hr
          subst hff
          have hrcs : rc0 = rc := by
            rw [hm0, hrc] at hmatch
            injection hmatch
          subst hrcs
          refine ⟨h.length, le_refl _, ?_, ?_⟩
          · exact hB r _ hobj1 (Or.inl hin)
          · exact hB h.length _ hmeta1 (Or.inr (matchingControl_metadataObject rcs rc0))
      · intro r fields hr hcond
        have hrr : r ≠ r0 := by
          intro hrr
          subst hrr
          rcases hcond with hnot | hnone
          · exact hnot (List.mem_cons_self _ _)
          · rw [hr0] at hr
            have hff : f0 = fields := by injection hr
            subst hff
            rw [hm0, hrc] at hnone
            cases hnone
        have hr1 : (decorateObject h r0 rc0).1[r]? = some fields := by
          rw [decorateObject_frame h r0 rc0 r (List.getElem?_eq_some.mp hr).1 hrr]
          exact hr
        apply hB r fields hr1
        rcases hcond with hnot | hnone
        · exact Or.inl (fun hin => hnot (List.mem_cons_of_mem _ hin))
        · exact Or.inr hnone
      · rw [hlen1] at hC
        exact Nat.le_of_succ_le hC
      · rw [List.cons_append, loop_cons_some rcs h acc (pre ++ rest) r0 f0 s0 rc0 hr0 hs0 hrc,
          heq]
        simp

/-! ## The lookup -/

theorem getResourceControlByResourceID_some {s : String} {rcs : List ResourceControl}
    {rc : ResourceControl} (hrc : getResourceControlByResourceID s rcs = some rc) :
    rc ∈ rcs ∧ rc.ResourceID = s := by
  induction rcs with
  | nil => simp [getResourceControlByResourceID] at hrc
  | cons c rest ih =>
    unfold getResourceControlByResourceID at hrc
    split at hrc
    · rename_i heq
      injection hrc with hc
      subst hc
      exact ⟨List.mem_cons_self _ _, heq.symm⟩
    · exact ⟨List.mem_cons_of_mem _ (ih hrc).1, (ih hrc).2⟩

theorem getResourceControlByResourceID_none {s : String} {rcs : List ResourceControl}
    (hno : ∀ c ∈ rcs, c.ResourceID ≠ s) : getResourceControlByResourceID s rcs = none := by
  induction rcs with
  | nil => rfl
  | cons c rest ih =>
    unfold getResourceControlByResourceID
    have hc : ¬ s = c.ResourceID := fun e => hno c (List.mem_cons_self _ _) e.symm
    rw [if_neg hc]
    exact ih (fun c' hc' => hno c' (List.mem_cons_of_mem _ hc'))

theorem getResourceControlByResourceID_isSome {s : String} {rcs : List ResourceControl}
    {c : ResourceControl} (hc : c ∈ rcs) (hs : c.ResourceID = s) :
    ∃ rc, getResourceControlByResourceID s rcs = some rc := by
  cases hrc : getResourceControlByResourceID s rcs with
  | some rc => exact ⟨rc, rfl⟩
  | none =>
    exfalso
    induction rcs with
    | nil => simp at hc
    | cons c' rest ih =>
      unfold getResourceControlByResourceID at hrc
      split at hrc
      · cases hrc
      · rename_i hne
        rcases List.mem_cons.mp hc with he | hin
        · subst he
          exact hne hs.symm
        · exact ih hin hrc

/-! ## Consequences of the loop invariant -/

/-- The loop only writes the `"Portainer"` key of objects of the initial heap. -/
theorem DecoratedHeap.otherKeys {rcs : List ResourceControl} {h h' : Heap} {vs : List Value}
    (hd : DecoratedHeap rcs h vs h') (r : Ref) (fields : Obj) (hr : h[r]? = some fields) :
    ∃ fields', h'[r]? = some fields' ∧ ∀ k, k ≠ portainerKey → fields' k = fields k := by
  obtain ⟨hA, hB, _⟩ := hd
  by_cases hin : Value.mapRef r ∈ vs
  · cases hm : matchingControl rcs fields with
    | none => exact ⟨fields, hB r fields hr (Or.inr hm), fun _ _ => rfl⟩
    | some rc =>
      obtain ⟨m, _, hobj, _⟩ := hA r fields rc hin hr hm
      exact ⟨_, hobj, fun k hk => Obj.insert_other fields portainerKey k _ hk⟩
  · exact ⟨fields, hB r fields hr (Or.inl hin), fun _ _ => rfl⟩

/-- On a well-formed list the call returns the list it was given, in a heap related to
the initial one by `DecoratedHeap`. -/
theorem decorateVolumeList_wellFormed (rcs : List ResourceControl) (h : Heap) (vs : List Value)
    (hwf : ∀ v ∈ vs, WellFormedVolume h v) :
    ∃ h', DecoratedHeap rcs h vs h' ∧
      decorateVolumeList h vs rcs = (h', Outcome.returned (some vs) none) := by
  obtain ⟨h', hd, heq⟩ := loop_wellFormed_append rcs vs h [] [] hwf
  refine ⟨h', hd, ?_⟩
  unfold decorateVolumeList
  simp only [List.append_nil, List.nil_append] at heq
  rw [heq, decorateVolumeList.loop]

/-- A list whose elements are well-formed or lack the identifier, and one of which lacks
it, splits at the first element lacking it. -/
theorem exists_first_lacking (h : Heap) :
    ∀ vs : List Value, (∀ v ∈ vs, WellFormedVolume h v ∨ LacksIdentifier h v) →
      (∃ v ∈ vs, LacksIdentifier h v) →
      ∃ pre bad post, vs = pre ++ bad :: post ∧ (∀ v ∈ pre, WellFormedVolume h v) ∧
        LacksIdentifier h bad := by
  intro vs
  induction vs with
  | nil =>
    intro _ hex
    obtain ⟨v, hv, _⟩ := hex
    simp at hv
  | cons v vs ih =>
    intro hall hex
    rcases hall v (List.mem_cons_self _ _) with hwf | hlack
    · obtain ⟨w, hw, hwl⟩ := hex
      rcases List.mem_cons.mp hw with he | hin
      · subst he
        exact ⟨[], w, vs, rfl, by simp, hwl⟩
      · obtain ⟨pre, bad, post, hsplit, hpre, hbad⟩ :=
          ih (fun u hu => hall u (List.mem_cons_of_mem _ hu)) ⟨w, hin, hwl⟩
        refine ⟨v :: pre, bad, post, by rw [hsplit]; rfl, ?_, hbad⟩
        intro u hu
        rcases List.mem_cons.mp hu with he | hin'
        · subst he
          exact hwf
        · exact hpre u hin'
    · exact ⟨[], v, vs, rfl, by simp, hlack⟩

/-- A list with a well-formed front part followed by an element lacking the identifier
makes the call return the error, in a heap related to the initial one by `DecoratedHeap`
for the front part. -/
theorem decorateVolumeList_lacking (rcs : List ResourceControl) (h : Heap)
    (pre : List Value) (bad : Value) (post : List Value)
    (hpre : ∀ v ∈ pre, WellFormedVolume h v) (hbad : LacksIdentifier h bad) :
    ∃ h', DecoratedHeap rcs h pre h' ∧
      decorateVolumeList h (pre ++ bad :: post) rcs =
        (h', Outcome.returned none (some Error.ErrDockerVolumeIdentifierNotFound)) := by
  obtain ⟨h', hd, heq⟩ := loop_wellFormed_append rcs pre h [] (bad :: post) hpre
  refine ⟨h', hd, ?_⟩
  unfold decorateVolumeList
  rw [heq]
  apply loop_cons_lacks
  obtain ⟨r, fields, hv, hr, hs⟩ := hbad
  refine ⟨r, fields, hv, ?_, hs⟩
  apply hd.2.1 r fields hr
  right
  unfold matchingControl
  rcases hs with hs | hs <;> rw [hs]

/-! ## Concrete inputs are well-formed -/

theorem scenarioVolumes_wellFormed : ∀ v ∈ scenarioVolumes, WellFormedVolume scenarioHeap v := by
  intro v hv
  simp [scenarioVolumes] at hv
  rcases hv with rfl | rfl
  · exact ⟨0, _, "v1", rfl, rfl, rfl⟩
  · exact ⟨1, _, "v2", rfl, rfl, rfl⟩

theorem taggedVolume_wellFormed : ∀ v ∈ [Value.mapRef 0], WellFormedVolume taggedHeap v := by
  intro v hv
  simp at hv
  subst hv
  exact ⟨0, _, "v1", rfl, rfl, rfl⟩

theorem brokenHeap_front_wellFormed :
    ∀ v ∈ [Value.mapRef 0], WellFormedVolume brokenHeap v := by
  intro v hv
  simp at hv
  subst hv
  exact ⟨0, _, "v1", rfl, rfl, rfl⟩

theorem brokenHeap_lacks : LacksIdentifier brokenHeap (Value.mapRef 1) :=
  ⟨1, _, rfl, rfl, Or.inl rfl⟩

/-! ## Claims about `decorateVolumeList` -/

/-- C1, counterexample. The volume `{"Name":"v1","Portainer":"old"}` is well-formed and
matches the control for `v1`. The call succeeds, but the field `"Portainer"` that the
volume had is overwritten with the metadata map, and removing the key from the result
does not give back the original volume. -/
theorem decorateVolumeList_roundtrip_counterexample :
    (∀ v ∈ [Value.mapRef 0], WellFormedVolume taggedHeap v) ∧
    (decorateVolumeList taggedHeap [Value.mapRef 0] [scenarioControl]).2 =
      Outcome.returned (some [Value.mapRef 0]) none ∧
    (taggedHeap[0]?).bind (fun o => o "Portainer") = some (Value.str "old") ∧
    ((decorateVolumeList taggedHeap [Value.mapRef 0] [scenarioControl]).1[0]?).bind
      (fun o => o "Portainer") = some (Value.mapRef 1) ∧
    ¬ (∀ fields fields' : Obj, taggedHeap[0]? = some fields →
        (decorateVolumeList taggedHeap [Value.mapRef 0] [scenarioControl]).1[0]? = some fields' →
        fields'.erase "Portainer" = fields) := by
  refine ⟨taggedVolume_wellFormed, rfl, rfl, rfl, ?_⟩
  intro hall
  have hbad := hall (Obj.ofList [("Name", Value.str "v1"), ("Portainer", Value.str "old")]) _
    rfl rfl
  have hkey := congrFun hbad "Portainer"
  simp [Obj.erase, Obj.ofList] at hkey

/-- C1, amended. For every list of well-formed volumes and every control set,
`decorateVolumeList` succeeds and returns the very elements it was given, in the original
order. An object that is not an element matching a control is exactly as it was, a
`"Portainer"` field it had included. An element matching a control has exactly the fields
it had, except that `"Portainer"` is bound to a new map holding the metadata of that
control: a `"Portainer"` field it had is overwritten. So every field other than
`"Portainer"` of every object is unchanged, and removing the key `"Portainer"` from an
element of the result gives the original element with that key removed, which is the
original element itself when it had no `"Portainer"` field. -/
theorem decorateVolumeList_roundtrip (h : Heap) (vs : List Value) (rcs : List ResourceControl)
    (hwf : ∀ v ∈ vs, WellFormedVolume h v) :
    ∃ h', decorateVolumeList h vs rcs = (h', Outcome.returned (some vs) none) ∧
      (∀ (r : Ref) (fields : Obj), h[r]? = some fields →
        (Value.mapRef r ∉ vs ∨ matchingControl rcs fields = none) →
        h'[r]? = some fields) ∧
      (∀ (r : Ref) (fields : Obj) (rc : ResourceControl), Value.mapRef r ∈ vs →
        h[r]? = some fields → matchingControl rcs fields = some rc →
        ∃ m, h.length ≤ m ∧
          h'[r]? = some (fields.insert "Portainer" (Value.mapRef m)) ∧
          h'[m]? = some (Obj.empty.insert "ResourceControl"
            (Value.rcm { ID := rc.ID, Users := rc.Users, Teams := rc.Teams })) ∧
          (fields.insert "Portainer" (Value.mapRef m)).erase "Portainer" =
            fields.erase "Portainer" ∧
          (fields "Portainer" = none →
            (fields.insert "Portainer" (Value.mapRef m)).erase "Portainer" = fields)) ∧
      (∀ (r : Ref) (fields : Obj), h[r]? = some fields →
        ∃ fields' : Obj, h'[r]? = some fields' ∧
          (∀ k, k ≠ "Portainer" → fields' k = fields k) ∧
          fields'.erase "Portainer" = fields.erase "Portainer" ∧
          (fields "Portainer" = none → fields'.erase "Portainer" = fields)) := by
  obtain ⟨h', hd, heq⟩ := decorateVolumeList_wellFormed rcs h vs hwf
  refine ⟨h', heq, hd.2.1, ?_, ?_⟩
  · intro r fields rc hin hr hm
    obtain ⟨m, hle, hobj, hmeta⟩ := hd.1 r fields rc hin hr hm
    refine ⟨m, hle, hobj, hmeta, Obj.erase_insert fields "Portainer" (Value.mapRef m), ?_⟩
    intro hnone
    rw [Obj.erase_insert]
    exact Obj.erase_of_none fields "Portainer" hnone
  · intro r fields hr
    obtain ⟨fields', hr', hkeys⟩ := hd.otherKeys r fields hr
    have herase : fields'.erase "Portainer" = fields.erase "Portainer" := by
      funext k
      unfold Obj.erase
      split
      · rfl
      · rename_i hk
        exact hkeys k hk
    refine ⟨fields', hr', hkeys, herase, ?_⟩
    intro hnone
    rw [herase]
    funext k
    unfold Obj.erase
    split
    · rename_i hk
      rw [hk, hnone]
    · rfl

/-- C1, witness: the amended round trip at the volume `{"Name":"v1","Portainer":"old"}`,
once with the control for `v1`, which overwrites the field, and once with no control,
which leaves the volume as it was. -/
theorem decorateVolumeList_roundtrip_witness :
    (∀ v ∈ [Value.mapRef 0], WellFormedVolume taggedHeap v) ∧
    (∃ h', decorateVolumeList taggedHeap [Value.mapRef 0] [scenarioControl] =
        (h', Outcome.returned (some [Value.mapRef 0]) none) ∧
      ∃ m, taggedHeap.length ≤ m ∧
        h'[0]? = some ((Obj.ofList [("Name", Value.str "v1"),
          ("Portainer", Value.str "old")]).insert "Portainer" (Value.mapRef m)) ∧
        h'[m]? = some (Obj.empty.insert "ResourceControl"
          (Value.rcm { ID := 7, Users := [1, 2], Teams := [] }))) ∧
    (∃ h', decorateVolumeList taggedHeap [Value.mapRef 0] [] =
        (h', Outcome.returned (some [Value.mapRef 0]) none) ∧
      h'[0]? = some (Obj.ofList [("Name", Value.str "v1"),
        ("Portainer", Value.str "old")])) := by
  refine ⟨taggedVolume_wellFormed, ?_, ?_⟩
  · obtain ⟨h', heq, _, hmatched, _⟩ :=
      decorateVolumeList_roundtrip taggedHeap [Value.mapRef 0] [scenarioControl]
        taggedVolume_wellFormed
    obtain ⟨m, hle, hobj, hmeta, _, _⟩ := hmatched 0 _ scenarioControl (by simp) rfl rfl
    exact ⟨h', heq, m, hle, hobj, hmeta⟩
  · obtain ⟨h', heq, hsame, _, _⟩ :=
      decorateVolumeList_roundtrip taggedHeap [Value.mapRef 0] [] taggedVolume_wellFormed
    exact ⟨h', heq, hsame 0 _ rfl (Or.inr rfl)⟩

/-- C2. For every well-formed volume list and control set, each element whose identifier
`s` is the resource identifier of a control `c` of the set is, after the call, an object
with `"Portainer"` bound to a map holding the single key `"ResourceControl"` with the ID,
users and teams of the control `rc` that the lookup finds for `s`: a control of the set
with resource identifier `s`, which is `c` itself when `c` is the only such control. All
other fields of the element are those it had. -/
theorem decorateVolumeList_matched (h : Heap) (vs : List Value) (rcs : List ResourceControl)
    (hwf : ∀ v ∈ vs, WellFormedVolume h v) :
    ∃ h', decorateVolumeList h vs rcs = (h', Outcome.returned (some vs) none) ∧
      ∀ (r : Ref) (fields : Obj) (s : String) (c : ResourceControl),
        Value.mapRef r ∈ vs → h[r]? = some fields →
        fields volumeIdentifier = some (Value.str s) → c ∈ rcs → c.ResourceID = s →
        ∃ rc m, getResourceControlByResourceID s rcs = some rc ∧
          rc ∈ rcs ∧ rc.ResourceID = s ∧
          ((∀ c' ∈ rcs, c'.ResourceID = s → c' = c) → rc = c) ∧
          h'[r]? = some (fields.insert "Portainer" (Value.mapRef m)) ∧
          h'[m]? = some (Obj.empty.insert "ResourceControl"
            (Value.rcm { ID := rc.ID, Users := rc.Users, Teams := rc.Teams })) := by
  obtain ⟨h', hd, heq⟩ := decorateVolumeList_wellFormed rcs h vs hwf
  refine ⟨h', heq, ?_⟩
  intro r fields s c hin hr hs hc hcs
  obtain ⟨rc, hrc⟩ := getResourceControlByResourceID_isSome hc hcs
  obtain ⟨hmem, hid⟩ := getResourceControlByResourceID_some hrc
  obtain ⟨m, _, hobj, hmeta⟩ := hd.1 r fields rc hin hr
    (by rw [matchingControl_of_identifier rcs fields s hs]; exact hrc)
  exact ⟨rc, m, hrc, hmem, hid, fun huniq => huniq rc hmem hid, hobj, hmeta⟩

/-- C2, witness: the spec's end-to-end scenario. The volumes `{"Name":"v1"}` and
`{"Name":"v2"}` with the control `{ID 7, resource "v1", Users [1,2], Teams []}` give a
list whose first element is `{"Name":"v1","Portainer":m}`, where `m` is the new map
`{"ResourceControl":{7, [1,2], []}}`, and whose second element is `{"Name":"v2"}`. -/
theorem decorateVolumeList_matched_witness :
    (∀ v ∈ scenarioVolumes, WellFormedVolume scenarioHeap v) ∧
    (∃ h', decorateVolumeList scenarioHeap scenarioVolumes [scenarioControl] =
        (h', Outcome.returned (some scenarioVolumes) none) ∧
      ∀ (r : Ref) (fields : Obj) (s : String) (c : ResourceControl),
        Value.mapRef r ∈ scenarioVolumes → scenarioHeap[r]? = some fields →
        fields volumeIdentifier = some (Value.str s) → c ∈ [scenarioControl] →
        c.ResourceID = s →
        ∃ rc m, getResourceControlByResourceID s [scenarioControl] = some rc ∧
          rc ∈ [scenarioControl] ∧ rc.ResourceID = s ∧
          ((∀ c' ∈ [scenarioControl], c'.ResourceID = s → c' = c) → rc = c) ∧
          h'[r]? = some (fields.insert "Portainer" (Value.mapRef m)) ∧
          h'[m]? = some (Obj.empty.insert "ResourceControl"
            (Value.rcm { ID := rc.ID, Users := rc.Users, Teams := rc.Teams }))) ∧
    (decorateVolumeList scenarioHeap scenarioVolumes [scenarioControl]).2 =
      Outcome.returned (some [Value.mapRef 0, Value.mapRef 1]) none ∧
    (∀ k, ((decorateVolumeList scenarioHeap scenarioVolumes [scenarioControl]).1[0]?).bind
        (fun o => o k) =
      Obj.ofList [("Name", Value.str "v1"), ("Portainer", Value.mapRef 2)] k) ∧
    (∀ k, ((decorateVolumeList scenarioHeap scenarioVolumes [scenarioControl]).1[2]?).bind
        (fun o => o k) =
      Obj.ofList [("ResourceControl",
        Value.rcm { ID := 7, Users := [1, 2], Teams := [] })] k) ∧
    (∀ k, ((decorateVolumeList scenarioHeap scenarioVolumes [scenarioControl]).1[1]?).bind
        (fun o => o k) = Obj.ofList [("Name", Value.str "v2")] k) := by
  refine ⟨scenarioVolumes_wellFormed,
    decorateVolumeList_matched scenarioHeap scenarioVolumes [scenarioControl]
      scenarioVolumes_wellFormed, rfl, ?_, ?_, ?_⟩
  · intro k
    show (Obj.ofList [("Name", Value.str "v1")]).insert "Portainer" (Value.mapRef 2) k = _
    unfold Obj.insert Obj.ofList Obj.ofList Obj.ofList
    by_cases h1 : k = "Portainer"
    · subst h1
      simp
    · simp [h1]
  · intro k
    rfl
  · intro k
    rfl

/-- C3. For every well-formed volume list and control set, each element whose identifier
is the resource identifier of no control of the set is, in the result, at the same
position the same object with the same fields: nothing is added to it. -/
theorem decorateVolumeList_unmatched (h : Heap) (vs : List Value) (rcs : List ResourceControl)
    (hwf : ∀ v ∈ vs, WellFormedVolume h v) :
    ∃ h' ds, decorateVolumeList h vs rcs = (h', Outcome.returned (some ds) none) ∧
      ∀ (i : Nat) (r : Ref) (fields : Obj) (s : String),
        vs[i]? = some (Value.mapRef r) → h[r]? = some fields →
        fields volumeIdentifier = some (Value.str s) → (∀ c ∈ rcs, c.ResourceID ≠ s) →
        ds[i]? = some (Value.mapRef r) ∧ h'[r]? = some fields := by
  obtain ⟨h', hd, heq⟩ := decorateVolumeList_wellFormed rcs h vs hwf
  refine ⟨h', vs, heq, ?_⟩
  intro i r fields s hi hr hs hno
  refine ⟨hi, hd.2.1 r fields hr (Or.inr ?_)⟩
  rw [matchingControl_of_identifier rcs fields s hs]
  exact getResourceControlByResourceID_none hno

/-- C3, witness: in the spec's scenario the volume `v2` matches no control. -/
theorem decorateVolumeList_unmatched_witness :
    (∀ v ∈ scenarioVolumes, WellFormedVolume scenarioHeap v) ∧
    ∃ h' ds, decorateVolumeList scenarioHeap scenarioVolumes [scenarioControl] =
        (h', Outcome.returned (some ds) none) ∧
      ∀ (i : Nat) (r : Ref) (fields : Obj) (s : String),
        scenarioVolumes[i]? = some (Value.mapRef r) → scenarioHeap[r]? = some fields →
        fields volumeIdentifier = some (Value.str s) →
        (∀ c ∈ [scenarioControl], c.ResourceID ≠ s) →
        ds[i]? = some (Value.mapRef r) ∧ h'[r]? = some fields :=
  ⟨scenarioVolumes_wellFormed,
    decorateVolumeList_unmatched scenarioHeap scenarioVolumes [scenarioControl]
      scenarioVolumes_wellFormed⟩

/-- C4. For every volume list whose elements are maps that either have a string
identifier or lack the identifier (key absent or bound to `nil`), at least one of them
lacking it, and for every control set, `decorateVolumeList` returns the pair of the nil
list and `ErrDockerVolumeIdentifierNotFound`, wherever the malformed element stands and
whatever was matched before it. -/
theorem decorateVolumeList_missing_identifier (h : Heap) (vs : List Value)
    (rcs : List ResourceControl)
    (hall : ∀ v ∈ vs, WellFormedVolume h v ∨ LacksIdentifier h v)
    (hex : ∃ v ∈ vs, LacksIdentifier h v) :
    (decorateVolumeList h vs rcs).2 =
      Outcome.returned none (some Error.ErrDockerVolumeIdentifierNotFound) := by
  obtain ⟨pre, bad, post, hsplit, hpre, hbad⟩ := exists_first_lacking h vs hall hex
  obtain ⟨h', _, heq⟩ := decorateVolumeList_lacking rcs h pre bad post hpre hbad
  rw [hsplit, heq]

/-- C4, witness: the list `{"Name":"v1"}`, `{}` with the control for `v1`: the first
element is matched, the second lacks the identifier. -/
theorem decorateVolumeList_missing_identifier_witness :
    (∀ v ∈ [Value.mapRef 0, Value.mapRef 1],
      WellFormedVolume brokenHeap v ∨ LacksIdentifier brokenHeap v) ∧
    (∃ v ∈ [Value.mapRef 0, Value.mapRef 1], LacksIdentifier brokenHeap v) ∧
    (decorateVolumeList brokenHeap [Value.mapRef 0, Value.mapRef 1] [scenarioControl]).2 =
      Outcome.returned none (some Error.ErrDockerVolumeIdentifierNotFound) :=
  have hall : ∀ v ∈ [Value.mapRef 0, Value.mapRef 1],
      WellFormedVolume brokenHeap v ∨ LacksIdentifier brokenHeap v := by
    intro v hv
    simp at hv
    rcases hv with rfl | rfl
    · exact Or.inl ⟨0, _, "v1", rfl, rfl, rfl⟩
    · exact Or.inr brokenHeap_lacks
  have hex : ∃ v ∈ [Value.mapRef 0, Value.mapRef 1], LacksIdentifier brokenHeap v :=
    ⟨Value.mapRef 1, by simp, brokenHeap_lacks⟩
  ⟨hall, hex, decorateVolumeList_missing_identifier brokenHeap _ [scenarioControl] hall hex⟩

/-- C5, counterexample. On the list `{"Name":"v1"}`, `{}` with the control for `v1` the
call fails with the missing-identifier error, and the first object of the caller's list,
which had no `"Portainer"` field before the call, has one after it. -/
theorem decorateVolumeList_failure_counterexample :
    (∀ v ∈ [Value.mapRef 0], WellFormedVolume brokenHeap v) ∧
    LacksIdentifier brokenHeap (Value.mapRef 1) ∧
    (decorateVolumeList brokenHeap [Value.mapRef 0, Value.mapRef 1] [scenarioControl]).2 =
      Outcome.returned none (some Error.ErrDockerVolumeIdentifierNotFound) ∧
    (brokenHeap[0]?).bind (fun o => o "Portainer") = none ∧
    ((decorateVolumeList brokenHeap [Value.mapRef 0, Value.mapRef 1] [scenarioControl]).1[0]?).bind
      (fun o => o "Portainer") = some (Value.mapRef 2) ∧
    (decorateVolumeList brokenHeap [Value.mapRef 0, Value.mapRef 1] [scenarioControl]).1[0]? ≠
      brokenHeap[0]? := by
  refine ⟨brokenHeap_front_wellFormed, brokenHeap_lacks, rfl, rfl, rfl, ?_⟩
  intro heq
  have hkey := congrArg (fun x : Option Obj => x.bind (fun o => o "Portainer")) heq
  have hafter : ((decorateVolumeList brokenHeap [Value.mapRef 0, Value.mapRef 1]
      [scenarioControl]).1[0]?).bind (fun o => o "Portainer") = some (Value.mapRef 2) := rfl
  have hbefore : (brokenHeap[0]?).bind (fun o => o "Portainer") = none := rfl
  simp only [hafter, hbefore] at hkey
  cases hkey

/-- C5, amended. When the list is a well-formed front part followed by an element lacking
the identifier (and anything after it), `decorateVolumeList` fails with the
missing-identifier error and has written nothing but `"Portainer"` keys: every field
other than `"Portainer"` of every object is as it was before the call, and every object
that is not an element of the front part matching a control is left exactly as it was.
An element of the front part that matches a control has its `"Portainer"` key bound to a
new metadata map. -/
theorem decorateVolumeList_failure_frame (h : Heap) (pre : List Value) (bad : Value)
    (post : List Value) (rcs : List ResourceControl)
    (hpre : ∀ v ∈ pre, WellFormedVolume h v) (hbad : LacksIdentifier h bad) :
    ∃ h', decorateVolumeList h (pre ++ bad :: post) rcs =
        (h', Outcome.returned none (some Error.ErrDockerVolumeIdentifierNotFound)) ∧
      (∀ (r : Ref) (fields : Obj), h[r]? = some fields →
        ∃ fields' : Obj, h'[r]? = some fields' ∧
          ∀ k, k ≠ "Portainer" → fields' k = fields k) ∧
      (∀ (r : Ref) (fields : Obj), h[r]? = some fields →
        (Value.mapRef r ∉ pre ∨ matchingControl rcs fields = none) →
        h'[r]? = some fields) ∧
      (∀ (r : Ref) (fields : Obj) (rc : ResourceControl), Value.mapRef r ∈ pre →
        h[r]? = some fields → matchingControl rcs fields = some rc →
        ∃ m, h.length ≤ m ∧
          h'[r]? = some (fields.insert "Portainer" (Value.mapRef m)) ∧
          h'[m]? = some (metadataObject rc)) := by
  obtain ⟨h', hd, heq⟩ := decorateVolumeList_lacking rcs h pre bad post hpre hbad
  exact ⟨h', heq, fun r fields hr => hd.otherKeys r fields hr, hd.2.1, hd.1⟩

/-- C5, witness: the amended frame property on the list `{"Name":"v1"}`, `{}`. -/
theorem decorateVolumeList_failure_frame_witness :
    (∀ v ∈ [Value.mapRef 0], WellFormedVolume brokenHeap v) ∧
    LacksIdentifier brokenHeap (Value.mapRef 1) ∧
    ∃ h', decorateVolumeList brokenHeap ([Value.mapRef 0] ++ Value.mapRef 1 :: [])
          [scenarioControl] =
        (h', Outcome.returned none (some Error.ErrDockerVolumeIdentifierNotFound)) ∧
      (∀ (r : Ref) (fields : Obj), brokenHeap[r]? = some fields →
        ∃ fields' : Obj, h'[r]? = some fields' ∧
          ∀ k, k ≠ "Portainer" → fields' k = fields k) ∧
      (∀ (r : Ref) (fields : Obj), brokenHeap[r]? = some fields →
        (Value.mapRef r ∉ [Value.mapRef 0] ∨ matchingControl [scenarioControl] fields = none) →
        h'[r]? = some fields) ∧
      (∀ (r : Ref) (fields : Obj) (rc : ResourceControl), Value.mapRef r ∈ [Value.mapRef 0] →
        brokenHeap[r]? = some fields → matchingControl [scenarioControl] fields = some rc →
        ∃ m, brokenHeap.length ≤ m ∧
          h'[r]? = some (fields.insert "Portainer" (Value.mapRef m)) ∧
          h'[m]? = some (metadataObject rc)) :=
  ⟨brokenHeap_front_wellFormed, brokenHeap_lacks,
    decorateVolumeList_failure_frame brokenHeap [Value.mapRef 0] (Value.mapRef 1) []
      [scenarioControl] brokenHeap_front_wellFormed brokenHeap_lacks⟩

/-- C6. For every control set (and every heap), `decorateVolumeList` applied to the empty
volume list returns the pair of a non-nil list of length zero and the nil error, and
leaves the heap as it was. -/
theorem decorateVolumeList_empty (h : Heap) (rcs : List ResourceControl) :
    decorateVolumeList h [] rcs = (h, Outcome.returned (some []) none) := rfl

/-! ## Claims about request rewriting -/

theorem HasSuffix_slash_data {a : String} (ha : HasSuffix a "/" = true) :
    a.data = a.data.dropLast ++ ['/'] := by
  unfold HasSuffix at ha
  obtain ⟨t, ht⟩ := List.isSuffixOf_iff_suffix.mp ha
  have hd : ("/" : String).data = ['/'] := rfl
  rw [hd] at ht
  rw [← ht, List.dropLast_concat]

theorem HasPrefix_slash_data {b : String} (hb : HasPrefix b "/" = true) :
    b.data = '/' :: b.data.drop 1 := by
  unfold HasPrefix at hb
  obtain ⟨t, ht⟩ := List.isPrefixOf_iff_prefix.mp hb
  have hd : ("/" : String).data = ['/'] := rfl
  rw [hd] at ht
  rw [← ht]
  rfl

/-- C7. For all strings `a` and `b`, `singleJoiningSlash a b` is `a'`, then `/`, then `b'`,
where `a'` is `a` without one trailing `/` if it has one and `b'` is `b` without one
leading `/` if it has one. The pairs `("/a/", "/b")`, `("/a", "b")` and `("/a", "/b")`
all give `"/a/b"`. -/
theorem singleJoiningSlash_spec :
    (∀ a b : String,
      singleJoiningSlash a b = trimTrailingSlash a ++ "/" ++ trimLeadingSlash b) ∧
    singleJoiningSlash "/a/" "/b" = "/a/b" ∧
    singleJoiningSlash "/a" "b" = "/a/b" ∧
    singleJoiningSlash "/a" "/b" = "/a/b" := by
  refine ⟨?_, by decide, by decide, by decide⟩
  intro a b
  have hd : ("/" : String).data = ['/'] := rfl
  apply String.ext
  unfold singleJoiningSlash trimTrailingSlash trimLeadingSlash sliceFrom1
  cases ha : HasSuffix a "/" <;> cases hb : HasPrefix b "/"
  · simp
  · have hb' := HasPrefix_slash_data hb
    simp only [Bool.false_and, Bool.not_false, Bool.not_true, Bool.and_false, Bool.false_eq_true,
      if_false, if_true, String.data_append, hd]
    conv_lhs => rw [hb']
    simp
  · have ha' := HasSuffix_slash_data ha
    simp only [Bool.true_and, Bool.not_false, Bool.not_true, Bool.false_and, Bool.false_eq_true,
      if_false, if_true, String.data_append, hd]
    conv_lhs => rw [ha']
  · have ha' := HasSuffix_slash_data ha
    simp only [Bool.and_self, if_true, String.data_append, hd]
    conv_lhs => rw [ha']

/-- C8. For every target, with query `t` when the proxy is built, and every request with
query `r`, the director sets the raw query to `t ++ "&" ++ r` when both are non-empty, to
`t` when `r` is empty, to `r` when `t` is empty and to the empty string when both are
empty, whatever the target is when the director runs. The pairs `("x=1", "y=2")`,
`("", "y=2")` and `("x=1", "")` give `"x=1&y=2"`, `"y=2"` and `"x=1"`. -/
theorem director_rawQuery :
    (∀ (target targetNow : URL) (req : Request),
      (target.RawQuery ≠ "" → req.URL.RawQuery ≠ "" →
        ((newSingleHostReverseProxyWithHostHeader target).Director targetNow req).URL.RawQuery =
          target.RawQuery ++ "&" ++ req.URL.RawQuery) ∧
      (req.URL.RawQuery = "" →
        ((newSingleHostReverseProxyWithHostHeader target).Director targetNow req).URL.RawQuery =
          target.RawQuery) ∧
      (target.RawQuery = "" →
        ((newSingleHostReverseProxyWithHostHeader target).Director targetNow req).URL.RawQuery =
          req.URL.RawQuery) ∧
      (target.RawQuery = "" → req.URL.RawQuery = "" →
        ((newSingleHostReverseProxyWithHostHeader target).Director targetNow req).URL.RawQuery =
          "")) ∧
    (∀ (target targetNow : URL) (req : Request),
      target.RawQuery = "x=1" → req.URL.RawQuery = "y=2" →
      ((newSingleHostReverseProxyWithHostHeader target).Director targetNow req).URL.RawQuery =
        "x=1&y=2") ∧
    (∀ (target targetNow : URL) (req : Request),
      target.RawQuery = "" → req.URL.RawQuery = "y=2" →
      ((newSingleHostReverseProxyWithHostHeader target).Director targetNow req).URL.RawQuery =
        "y=2") ∧
    (∀ (target targetNow : URL) (req : Request),
      target.RawQuery = "x=1" → req.URL.RawQuery = "" →
      ((newSingleHostReverseProxyWithHostHeader target).Director targetNow req).URL.RawQuery =
        "x=1") := by
  have hq : ∀ (target targetNow : URL) (req : Request),
      ((newSingleHostReverseProxyWithHostHeader target).Director targetNow req).URL.RawQuery =
        if target.RawQuery = "" ∨ req.URL.RawQuery = "" then
          target.RawQuery ++ req.URL.RawQuery
        else target.RawQuery ++ "&" ++ req.URL.RawQuery := by
    intro target targetNow req
    unfold newSingleHostReverseProxyWithHostHeader director
    dsimp only
    split <;> rfl
  refine ⟨?_, ?_, ?_, ?_⟩
  · intro target targetNow req
    refine ⟨?_, ?_, ?_, ?_⟩
    · intro ht hr
      rw [hq, if_neg (by simp [ht, hr])]
    · intro hr
      rw [hq, if_pos (Or.inr hr), hr, String.append_empty]
    · intro ht
      rw [hq, if_pos (Or.inl ht), ht, String.empty_append]
    · intro ht hr
      rw [hq, if_pos (Or.inl ht), ht, hr]
      rfl
  · intro target targetNow req ht hr
    rw [hq, ht, hr]
    decide
  · intro target targetNow req ht hr
    rw [hq, ht, hr]
    decide
  · intro target targetNow req ht hr
    rw [hq, ht, hr]
    decide

/-- C8, witness: the target `tcp://docker.example:2375/v1?x=1` and a request with the
query `all=1`. -/
theorem director_rawQuery_witness :
    sampleTarget.RawQuery ≠ "" ∧ sampleRequest.URL.RawQuery ≠ "" ∧
    ((newSingleHostReverseProxyWithHostHeader sampleTarget).Director sampleTarget
        sampleRequest).URL.RawQuery = "x=1&all=1" := by
  have hne1 : sampleTarget.RawQuery ≠ "" := by decide
  have hne2 : sampleRequest.URL.RawQuery ≠ "" := by decide
  refine ⟨hne1, hne2, ?_⟩
  rw [(director_rawQuery.1 sampleTarget sampleTarget sampleRequest).1 hne1 hne2]
  decide

/-- C9. For every target URL and every inbound request, after the director built by
`newSingleHostReverseProxyWithHostHeader` has run, the URL scheme of the request is the
scheme of the target, the URL host of the request is the host of the target, and the
`Host` field of the request is that rewritten URL host, whatever the request carried. -/
theorem director_scheme_host (target targetNow : URL) (req : Request) :
    ((newSingleHostReverseProxyWithHostHeader target).Director targetNow req).URL.Scheme =
      targetNow.Scheme ∧
    ((newSingleHostReverseProxyWithHostHeader target).Director targetNow req).URL.Host =
      targetNow.Host ∧
    ((newSingleHostReverseProxyWithHostHeader target).Director targetNow req).Host =
      ((newSingleHostReverseProxyWithHostHeader target).Director targetNow req).URL.Host ∧
    ((newSingleHostReverseProxyWithHostHeader target).Director target req).URL.Scheme =
      target.Scheme ∧
    ((newSingleHostReverseProxyWithHostHeader target).Director target req).URL.Host =
      target.Host := by
  unfold newSingleHostReverseProxyWithHostHeader director
  dsimp only
  refine ⟨?_, ?_, ?_, ?_, ?_⟩ <;> split <;> rfl

/-- C10. For every inbound request, after the director has run: if the headers had no
`User-Agent` entry, the entry exists and holds the empty string; if they had one, it is
unchanged; every header other than `User-Agent` is unchanged. -/
theorem director_userAgent (target targetNow : URL) (req : Request) :
    (req.Header "User-Agent" = none →
      ((newSingleHostReverseProxyWithHostHeader target).Director targetNow req).Header
        "User-Agent" = some [""]) ∧
    (∀ values, req.Header "User-Agent" = some values →
      ((newSingleHostReverseProxyWithHostHeader target).Director targetNow req).Header
        "User-Agent" = some values) ∧
    (∀ key, key ≠ "User-Agent" →
      ((newSingleHostReverseProxyWithHostHeader target).Director targetNow req).Header key =
        req.Header key) := by
  unfold newSingleHostReverseProxyWithHostHeader director
  dsimp only
  refine ⟨?_, ?_, ?_⟩
  · intro hnone
    rw [hnone]
    simp [Header.Set]
  · intro values hsome
    rw [hsome]
    exact hsome
  · intro key hkey
    cases hua : req.Header "User-Agent" with
    | some _ => rfl
    | none => simp [Header.Set, hkey]

/-- C10, witness: a request without `User-Agent` gets the empty entry and keeps its
`Accept` header; a request with `User-Agent: curl` keeps it. -/
theorem director_userAgent_witness :
    bareRequest.Header "User-Agent" = none ∧
    ((newSingleHostReverseProxyWithHostHeader sampleTarget).Director sampleTarget
      bareRequest).Header "User-Agent" = some [""] ∧
    ((newSingleHostReverseProxyWithHostHeader sampleTarget).Director sampleTarget
      bareRequest).Header "Accept" = some ["*/*"] ∧
    sampleRequest.Header "User-Agent" = some ["curl"] ∧
    ((newSingleHostReverseProxyWithHostHeader sampleTarget).Director sampleTarget
      sampleRequest).Header "User-Agent" = some ["curl"] := by
  have hnone : bareRequest.Header "User-Agent" = none := by decide
  have hsome : sampleRequest.Header "User-Agent" = some ["curl"] := by decide
  refine ⟨hnone, (director_userAgent sampleTarget sampleTarget bareRequest).1 hnone, ?_, hsome,
    (director_userAgent sampleTarget sampleTarget sampleRequest).2.1 _ hsome⟩
  rw [(director_userAgent sampleTarget sampleTarget bareRequest).2.2 "Accept" (by decide)]
  decide

/-! ## Claims about building the handlers -/

/-- C11. Whatever `crypto.CreateTLSConfiguration` does, `newHTTPSProxy` returns the pair of
the nil handler and an error exactly when that function returns an error, and the error is
the one it returned; when it returns no error, `newHTTPSProxy` returns a handler and no
error, and the `http.Transport` of the handler carries exactly the configuration that was
built. With a file system in which the client key does not exist, the builder modelled
from the spec fails, so there is an error and no handler. -/
theorem newHTTPSProxy_error_iff :
    (∀ (createTLS : String → String → String → Option TLSConfig × Option GoError)
        (factory : proxyFactory) (u : URL) (endpoint : Endpoint),
      ((∃ e, (factory.newHTTPSProxy createTLS u endpoint).2 = Built.returned none (some e)) ↔
        (createTLS endpoint.TLSCACertPath endpoint.TLSCertPath endpoint.TLSKeyPath).2 ≠ none) ∧
      (∀ e, (createTLS endpoint.TLSCACertPath endpoint.TLSCertPath endpoint.TLSKeyPath).2 =
          some e →
        (factory.newHTTPSProxy createTLS u endpoint).2 = Built.returned none (some e)) ∧
      ((createTLS endpoint.TLSCACertPath endpoint.TLSCertPath endpoint.TLSKeyPath).2 = none →
        ∃ handler, (factory.newHTTPSProxy createTLS u endpoint).2 =
            Built.returned (some handler) none ∧
          handler.Transport.transport = some
            { TLSClientConfig :=
                (createTLS endpoint.TLSCACertPath endpoint.TLSCertPath
                  endpoint.TLSKeyPath).1 })) ∧
    (∀ (assemble : String → String → String → Option TLSConfig) (factory : proxyFactory)
        (u : URL),
      ∃ e, (factory.newHTTPSProxy (CreateTLSConfiguration missingKeyFiles assemble) u
        sampleEndpoint).2 = Built.returned none (some e)) := by
  have herr : ∀ (createTLS : String → String → String → Option TLSConfig × Option GoError)
      (factory : proxyFactory) (u : URL) (endpoint : Endpoint) (e : GoError),
      (createTLS endpoint.TLSCACertPath endpoint.TLSCertPath endpoint.TLSKeyPath).2 = some e →
      (factory.newHTTPSProxy createTLS u endpoint).2 = Built.returned none (some e) := by
    intro createTLS factory u endpoint e he
    unfold proxyFactory.newHTTPSProxy
    dsimp only
    rw [he]
  have hok : ∀ (createTLS : String → String → String → Option TLSConfig × Option GoError)
      (factory : proxyFactory) (u : URL) (endpoint : Endpoint),
      (createTLS endpoint.TLSCACertPath endpoint.TLSCertPath endpoint.TLSKeyPath).2 = none →
      ∃ handler, (factory.newHTTPSProxy createTLS u endpoint).2 =
          Built.returned (some handler) none ∧
        handler.Transport.transport = some
          { TLSClientConfig :=
              (createTLS endpoint.TLSCACertPath endpoint.TLSCertPath
                endpoint.TLSKeyPath).1 } := by
    intro createTLS factory u endpoint hnone
    unfold proxyFactory.newHTTPSProxy
    dsimp only
    rw [hnone]
    exact ⟨_, rfl, rfl⟩
  refine ⟨?_, ?_⟩
  · intro createTLS factory u endpoint
    refine ⟨⟨?_, ?_⟩, herr createTLS factory u endpoint, hok createTLS factory u endpoint⟩
    · rintro ⟨e, he⟩ hnone
      obtain ⟨handler, hh, _⟩ := hok createTLS factory u endpoint hnone
      rw [hh] at he
      injection he with h1 _
      cases h1
    · intro hne
      cases hc : (createTLS endpoint.TLSCACertPath endpoint.TLSCertPath
          endpoint.TLSKeyPath).2 with
      | none => exact absurd hc hne
      | some e => exact ⟨e, herr createTLS factory u endpoint e hc⟩
  · intro assemble factory u
    refine ⟨"TLS material cannot be loaded", ?_⟩
    apply herr
    rfl

/-- C11, witness: with the key file missing there is an error and no handler; with the
three files present there is a handler whose transport carries the configuration. -/
theorem newHTTPSProxy_error_iff_witness :
    (CreateTLSConfiguration missingKeyFiles assembleAny sampleEndpoint.TLSCACertPath
      sampleEndpoint.TLSCertPath sampleEndpoint.TLSKeyPath).2 =
        some "TLS material cannot be loaded" ∧
    (sampleFactory.newHTTPSProxy (CreateTLSConfiguration missingKeyFiles assembleAny)
      sampleTarget sampleEndpoint).2 =
        Built.returned none (some "TLS material cannot be loaded") ∧
    (CreateTLSConfiguration completeFiles assembleAny sampleEndpoint.TLSCACertPath
      sampleEndpoint.TLSCertPath sampleEndpoint.TLSKeyPath).2 = none ∧
    ∃ handler, (sampleFactory.newHTTPSProxy (CreateTLSConfiguration completeFiles assembleAny)
        sampleTarget sampleEndpoint).2 = Built.returned (some handler) none ∧
      handler.Transport.transport = some
        { TLSClientConfig := some { CACert := "CA", Cert := "CERT", Key := "KEY" } } := by
  have hbad : (CreateTLSConfiguration missingKeyFiles assembleAny sampleEndpoint.TLSCACertPath
      sampleEndpoint.TLSCertPath sampleEndpoint.TLSKeyPath).2 =
        some "TLS material cannot be loaded" := rfl
  have hgood : (CreateTLSConfiguration completeFiles assembleAny sampleEndpoint.TLSCACertPath
      sampleEndpoint.TLSCertPath sampleEndpoint.TLSKeyPath).2 = none := rfl
  refine ⟨hbad, ?_, hgood, ?_⟩
  · exact (newHTTPSProxy_error_iff.1 (CreateTLSConfiguration missingKeyFiles assembleAny)
      sampleFactory sampleTarget sampleEndpoint).2.1 _ hbad
  · obtain ⟨handler, hh, ht⟩ :=
      (newHTTPSProxy_error_iff.1 (CreateTLSConfiguration completeFiles assembleAny)
        sampleFactory sampleTarget sampleEndpoint).2.2 hgood
    exact ⟨handler, hh, ht⟩

/-! ## Claims about the unix socket handler -/

theorem copyHeader_isUpstream (hdr : List (String × List String)) :
    ∀ e ∈ copyHeader hdr, e.isUpstream = true := by
  induction hdr with
  | nil =>
    intro e he
    simp [copyHeader] at he
  | cons kv rest ih =>
    obtain ⟨k, vv⟩ := kv
    intro e he
    unfold copyHeader at he
    rcases List.mem_append.mp he with hin | hin
    · obtain ⟨v, _, rfl⟩ := List.mem_map.mp hin
      rfl
    · exact ih e hin

theorem clientStatus_copyHeader (hdr : List (String × List String)) (rest : List Effect) :
    clientStatus (copyHeader hdr ++ rest) = clientStatus rest := by
  induction hdr with
  | nil => rfl
  | cons kv tail ih =>
    obtain ⟨k, vv⟩ := kv
    unfold copyHeader
    rw [List.append_assoc]
    induction vv with
    | nil => simpa using ih
    | cons v vs ihv => simpa [clientStatus] using ihv

/-- The run of the handler when the dial fails. -/
theorem ServeHTTP_dial_error (env : SocketEnv) (h : unixSocketHandler) (r : Request)
    (err : GoError) (hdial : env.Dial "unix" h.path = Except.error err) :
    h.ServeHTTP env r = [Effect.errorResponse err StatusInternalServerError] := by
  unfold unixSocketHandler.ServeHTTP
  rw [hdial]

/-- The run of the handler when the dial succeeds and the round trip fails. -/
theorem ServeHTTP_do_error (env : SocketEnv) (h : unixSocketHandler) (r : Request)
    (conn : Conn) (err : GoError) (hdial : env.Dial "unix" h.path = Except.ok conn)
    (hdo : env.Do conn r = Except.error err) :
    h.ServeHTTP env r = [Effect.errorResponse err StatusInternalServerError, Effect.closeConn] := by
  unfold unixSocketHandler.ServeHTTP
  rw [hdial]
  dsimp only
  rw [hdo]

/-- The run of the handler when dial and round trip succeed and the decoration fails. -/
theorem ServeHTTP_decoration_error (env : SocketEnv) (h : unixSocketHandler) (r : Request)
    (conn : Conn) (res res1 : Response) (err : GoError)
    (hdial : env.Dial "unix" h.path = Except.ok conn) (hdo : env.Do conn r = Except.ok res)
    (hdec : env.proxyDockerRequests h.transport r res = (res1, some err)) :
    h.ServeHTTP env r =
      [Effect.errorResponse err StatusInternalServerError, Effect.closeBody,
        Effect.closeConn] := by
  unfold unixSocketHandler.ServeHTTP
  rw [hdial]
  dsimp only
  rw [hdo]
  dsimp only
  rw [hdec]

/-- The run of the handler when dial, round trip and decoration succeed. -/
theorem ServeHTTP_streaming (env : SocketEnv) (h : unixSocketHandler) (r : Request)
    (conn : Conn) (res res1 : Response)
    (hdial : env.Dial "unix" h.path = Except.ok conn) (hdo : env.Do conn r = Except.ok res)
    (hdec : env.proxyDockerRequests h.transport r res = (res1, none)) :
    h.ServeHTTP env r =
      copyHeader res1.Header
        ++ (if (ioCopy env.clientLimit res1.Body).1 = [] then []
            else [Effect.write (ioCopy env.clientLimit res1.Body).1])
        ++ (match (ioCopy env.clientLimit res1.Body).2 with
            | some err => [Effect.errorResponse err StatusInternalServerError]
            | none => [])
        ++ [Effect.closeBody, Effect.closeConn] := by
  unfold unixSocketHandler.ServeHTTP
  rw [hdial]
  dsimp only
  rw [hdo]
  dsimp only
  rw [hdec]

/-- A run that fails at the dial, the round trip or the decoration has one error response,
with status 500, and hands nothing of the upstream response to the client. -/
theorem ServeHTTP_early_summary (env : SocketEnv) (h : unixSocketHandler) (r : Request)
    (hfail : (∃ err, env.Dial "unix" h.path = Except.error err) ∨
      (∃ conn err, env.Dial "unix" h.path = Except.ok conn ∧
        env.Do conn r = Except.error err) ∨
      (∃ conn res res1 err, env.Dial "unix" h.path = Except.ok conn ∧
        env.Do conn r = Except.ok res ∧
        env.proxyDockerRequests h.transport r res = (res1, some err))) :
    (∃ err, errorResponses (h.ServeHTTP env r) = [(err, 500)]) ∧
      ∀ e ∈ h.ServeHTTP env r, e.isUpstream = false := by
  rcases hfail with ⟨err, hd⟩ | ⟨conn, err, hd, ho⟩ | ⟨conn, res, res1, err, hd, ho, hp⟩
  · rw [ServeHTTP_dial_error env h r err hd]
    refine ⟨⟨err, rfl⟩, ?_⟩
    intro e he
    simp at he
    subst he
    rfl
  · rw [ServeHTTP_do_error env h r conn err hd ho]
    refine ⟨⟨err, rfl⟩, ?_⟩
    intro e he
    simp at he
    rcases he with rfl | rfl <;> rfl
  · rw [ServeHTTP_decoration_error env h r conn res res1 err hd ho hp]
    refine ⟨⟨err, rfl⟩, ?_⟩
    intro e he
    simp at he
    rcases he with rfl | rfl | rfl <;> rfl

/-- C12. In the unix socket handler, when the dial fails, or the dial succeeds and the
round trip fails, or both succeed and `proxyDockerRequests` fails, the handler writes
exactly one error response, with status 500 and the error met, and apart from the deferred
closing of what it had opened does nothing further: no upstream header is copied and no
body byte is written. -/
theorem ServeHTTP_early_failure (env : SocketEnv) (h : unixSocketHandler) (r : Request) :
    (∀ err, env.Dial "unix" h.path = Except.error err →
      h.ServeHTTP env r = [Effect.errorResponse err 500]) ∧
    (∀ conn err, env.Dial "unix" h.path = Except.ok conn → env.Do conn r = Except.error err →
      h.ServeHTTP env r = [Effect.errorResponse err 500, Effect.closeConn]) ∧
    (∀ conn res res1 err, env.Dial "unix" h.path = Except.ok conn →
      env.Do conn r = Except.ok res →
      env.proxyDockerRequests h.transport r res = (res1, some err) →
      h.ServeHTTP env r =
        [Effect.errorResponse err 500, Effect.closeBody, Effect.closeConn]) ∧
    (((∃ err, env.Dial "unix" h.path = Except.error err) ∨
      (∃ conn err, env.Dial "unix" h.path = Except.ok conn ∧
        env.Do conn r = Except.error err) ∨
      (∃ conn res res1 err, env.Dial "unix" h.path = Except.ok conn ∧
        env.Do conn r = Except.ok res ∧
        env.proxyDockerRequests h.transport r res = (res1, some err))) →
      (∃ err, errorResponses (h.ServeHTTP env r) = [(err, 500)]) ∧
      ∀ e ∈ h.ServeHTTP env r, e.isUpstream = false) := by
  exact ⟨fun err hd => ServeHTTP_dial_error env h r err hd,
    fun conn err hd ho => ServeHTTP_do_error env h r conn err hd ho,
    fun conn res res1 err hd ho hp => ServeHTTP_decoration_error env h r conn res res1 err hd ho hp,
    fun hfail => ServeHTTP_early_summary env h r hfail⟩

/-- C12, witness: a request to a socket on which nothing listens. -/
theorem ServeHTTP_early_failure_witness :
    deadSocketEnv.Dial "unix" sampleSocketHandler.path = Except.error "connection refused" ∧
    sampleSocketHandler.ServeHTTP deadSocketEnv sampleRequest =
      [Effect.errorResponse "connection refused" 500] ∧
    (∃ err, errorResponses (sampleSocketHandler.ServeHTTP deadSocketEnv sampleRequest) =
      [(err, 500)]) ∧
    ∀ e ∈ sampleSocketHandler.ServeHTTP deadSocketEnv sampleRequest, e.isUpstream = false :=
  have hdial : deadSocketEnv.Dial "unix" sampleSocketHandler.path =
      Except.error "connection refused" := rfl
  ⟨hdial,
    (ServeHTTP_early_failure deadSocketEnv sampleSocketHandler sampleRequest).1 _ hdial,
    ((ServeHTTP_early_failure deadSocketEnv sampleSocketHandler sampleRequest).2.2.2
      (Or.inl ⟨_, hdial⟩)).1,
    ((ServeHTTP_early_failure deadSocketEnv sampleSocketHandler sampleRequest).2.2.2
      (Or.inl ⟨_, hdial⟩)).2⟩

/-- C13, counterexample. Dial, round trip and decoration succeed and the connection to the
client breaks after three bytes of the body: the handler reports the error to the client
after it has copied the upstream header and written three bytes of the upstream body. -/
theorem ServeHTTP_streaming_counterexample :
    sampleSocketHandler.ServeHTTP brokenClientEnv sampleRequest =
      [Effect.headerAdd "Content-Type" "application/json",
        Effect.write [123, 34, 109],
        Effect.errorResponse "broken pipe" 500,
        Effect.closeBody, Effect.closeConn] ∧
    errorResponses (sampleSocketHandler.ServeHTTP brokenClientEnv sampleRequest) =
      [("broken pipe", 500)] ∧
    ¬ (∀ e ∈ sampleSocketHandler.ServeHTTP brokenClientEnv sampleRequest,
        e.isUpstream = false) := by
  have hrun : sampleSocketHandler.ServeHTTP brokenClientEnv sampleRequest =
      [Effect.headerAdd "Content-Type" "application/json",
        Effect.write [123, 34, 109],
        Effect.errorResponse "broken pipe" 500,
        Effect.closeBody, Effect.closeConn] := by decide
  refine ⟨hrun, by rw [hrun]; rfl, ?_⟩
  intro hall
  have hw := hall (Effect.write [123, 34, 109]) (by rw [hrun]; simp)
  cases hw

/-- C13, amended. In every run of the unix socket handler, an upstream header is copied or
an upstream body byte is written only if dial, round trip and decoration have succeeded:
a run that reports an error of one of these three stages has handed nothing of the
upstream response to the client. When the three succeed, the handler copies the upstream
headers, writes the bytes that `io.Copy` delivers, and only then reports the error of the
streaming stage, if there is one. -/
theorem ServeHTTP_upstream_after_decoration (env : SocketEnv) (h : unixSocketHandler)
    (r : Request) :
    ((∃ e ∈ h.ServeHTTP env r, e.isUpstream = true) →
      ∃ conn res res1, env.Dial "unix" h.path = Except.ok conn ∧
        env.Do conn r = Except.ok res ∧
        env.proxyDockerRequests h.transport r res = (res1, none)) ∧
    (∀ conn res res1, env.Dial "unix" h.path = Except.ok conn →
      env.Do conn r = Except.ok res →
      env.proxyDockerRequests h.transport r res = (res1, none) →
      h.ServeHTTP env r =
        copyHeader res1.Header
          ++ (if (ioCopy env.clientLimit res1.Body).1 = [] then []
              else [Effect.write (ioCopy env.clientLimit res1.Body).1])
          ++ (match (ioCopy env.clientLimit res1.Body).2 with
              | some err => [Effect.errorResponse err StatusInternalServerError]
              | none => [])
          ++ [Effect.closeBody, Effect.closeConn]) := by
  refine ⟨?_, fun conn res res1 hd ho hp => ServeHTTP_streaming env h r conn res res1 hd ho hp⟩
  rintro ⟨e, he, hup⟩
  have hearly := ServeHTTP_early_summary env h r
  cases hd : env.Dial "unix" h.path with
  | error err =>
    rw [(hearly (Or.inl ⟨err, hd⟩)).2 e he] at hup
    cases hup
  | ok conn =>
    cases ho : env.Do conn r with
    | error err =>
      rw [(hearly (Or.inr (Or.inl ⟨conn, err, hd, ho⟩))).2 e he] at hup
      cases hup
    | ok res =>
      rcases hp : env.proxyDockerRequests h.transport r res with ⟨res1, perr⟩
      cases perr with
      | none => exact ⟨conn, res, res1, rfl, ho, hp⟩
      | some err =>
        rw [(hearly (Or.inr (Or.inr ⟨conn, res, res1, err, hd, ho, hp⟩))).2 e he] at hup
        cases hup

/-- C13, witness: a run in which the three stages succeed and the client takes every byte
copies the header and writes the body, and reports no error. -/
theorem ServeHTTP_upstream_after_decoration_witness :
    notFoundEnv.Dial "unix" sampleSocketHandler.path = Except.ok 0 ∧
    notFoundEnv.Do 0 sampleRequest = Except.ok notFoundResponse ∧
    notFoundEnv.proxyDockerRequests sampleSocketHandler.transport sampleRequest
      notFoundResponse = (notFoundResponse, none) ∧
    sampleSocketHandler.ServeHTTP notFoundEnv sampleRequest =
      copyHeader notFoundResponse.Header
        ++ (if (ioCopy notFoundEnv.clientLimit notFoundResponse.Body).1 = [] then []
            else [Effect.write (ioCopy notFoundEnv.clientLimit notFoundResponse.Body).1])
        ++ (match (ioCopy notFoundEnv.clientLimit notFoundResponse.Body).2 with
            | some err => [Effect.errorResponse err StatusInternalServerError]
            | none => [])
        ++ [Effect.closeBody, Effect.closeConn] :=
  ⟨rfl, rfl, rfl,
    (ServeHTTP_upstream_after_decoration notFoundEnv sampleSocketHandler sampleRequest).2
      0 notFoundResponse notFoundResponse rfl rfl rfl⟩

/-- C15, the code at the failing input. The upstream answers `404`; dial, round trip,
decoration and streaming succeed. The handler copies the header and writes the body and
makes no call that sends the upstream status, so the client receives `200`. In no run
does the client receive a status other than `200` and `500`. -/
theorem ServeHTTP_status_not_relayed :
    notFoundResponse.StatusCode = 404 ∧
    sampleSocketHandler.ServeHTTP notFoundEnv sampleRequest =
      [Effect.headerAdd "Content-Type" "application/json",
        Effect.write [123, 34, 109, 34, 125],
        Effect.closeBody, Effect.closeConn] ∧
    clientStatus (sampleSocketHandler.ServeHTTP notFoundEnv sampleRequest) = 200 ∧
    (∀ (env : SocketEnv) (h : unixSocketHandler) (r : Request),
      clientStatus (h.ServeHTTP env r) = 200 ∨ clientStatus (h.ServeHTTP env r) = 500) := by
  refine ⟨rfl, by decide, by decide, ?_⟩
  intro env h r
  cases hd : env.Dial "unix" h.path with
  | error err =>
    rw [ServeHTTP_dial_error env h r err hd]
    exact Or.inr rfl
  | ok conn =>
    cases ho : env.Do conn r with
    | error err =>
      rw [ServeHTTP_do_error env h r conn err hd ho]
      exact Or.inr rfl
    | ok res =>
      rcases hp : env.proxyDockerRequests h.transport r res with ⟨res1, perr⟩
      cases perr with
      | some err =>
        rw [ServeHTTP_decoration_error env h r conn res res1 err hd ho hp]
        exact Or.inr rfl
      | none =>
        rw [ServeHTTP_streaming env h r conn res res1 hd ho hp]
        simp only [List.append_assoc]
        rw [clientStatus_copyHeader]
        by_cases hw : (ioCopy env.clientLimit res1.Body).1 = []
        · rw [if_pos hw]
          cases (ioCopy env.clientLimit res1.Body).2 with
          | none => exact Or.inl rfl
          | some err => exact Or.inr rfl
        · rw [if_neg hw]
          exact Or.inl rfl

/-! ## Claims about the scheme of the target -/

/-- The caller's URL after `newHTTPProxy`. -/
theorem newHTTPProxy_url (factory : proxyFactory) (u : URL) :
    (factory.newHTTPProxy u).1 = { u with Scheme := "http" } := rfl

/-- The caller's URL after `newHTTPSProxy`, whether it returns a handler or an error. -/
theorem newHTTPSProxy_url
    (createTLS : String → String → String → Option TLSConfig × Option GoError)
    (factory : proxyFactory) (u : URL) (endpoint : Endpoint) :
    (factory.newHTTPSProxy createTLS u endpoint).1 = { u with Scheme := "https" } := by
  unfold proxyFactory.newHTTPSProxy
  dsimp only
  split
  · rfl
  · split <;> rfl

/-- The director of a handler built by `newHTTPSProxy`. -/
theorem newHTTPSProxy_director
    (createTLS : String → String → String → Option TLSConfig × Option GoError)
    (factory : proxyFactory) (u : URL) (endpoint : Endpoint) (handler : ProxyHandler)
    (hbuilt : (factory.newHTTPSProxy createTLS u endpoint).2 =
      Built.returned (some handler) none) :
    handler.Director = director u.RawQuery := by
  unfold proxyFactory.newHTTPSProxy at hbuilt
  dsimp only at hbuilt
  split at hbuilt
  · injection hbuilt with h1 _
    cases h1
  · split at hbuilt
    · cases hbuilt
    · injection hbuilt with h1 _
      injection h1 with h2
      rw [← h2]
      rfl

/-- C16. For every target URL, whatever its scheme, a request rewritten by the handler
that `newHTTPProxy` returns has the URL scheme `http`, and a request rewritten by a
handler that `newHTTPSProxy` returns has the URL scheme `https`. The director reads the
scheme from the caller's URL, which the call has left with that scheme. -/
theorem proxy_scheme :
    (∀ (factory : proxyFactory) (u : URL) (req : Request),
      ((factory.newHTTPProxy u).2.Director (factory.newHTTPProxy u).1 req).URL.Scheme =
        "http") ∧
    (∀ (createTLS : String → String → String → Option TLSConfig × Option GoError)
        (factory : proxyFactory) (u : URL) (endpoint : Endpoint) (handler : ProxyHandler)
        (req : Request),
      (factory.newHTTPSProxy createTLS u endpoint).2 = Built.returned (some handler) none →
      (handler.Director (factory.newHTTPSProxy createTLS u endpoint).1 req).URL.Scheme =
        "https") := by
  refine ⟨?_, ?_⟩
  · intro factory u req
    unfold proxyFactory.newHTTPProxy proxyFactory.newSingleHostReverseProxyWithHostHeader
      newSingleHostReverseProxyWithHostHeader director
    dsimp only
    split <;> rfl
  · intro createTLS factory u endpoint handler req hbuilt
    rw [newHTTPSProxy_director createTLS factory u endpoint handler hbuilt,
      newHTTPSProxy_url]
    unfold director
    dsimp only
    split <;> rfl

/-- C16, witness: the target `tcp://docker.example:2375/v1?x=1` with the three TLS files
present; the handler of `newHTTPSProxy` rewrites the sample request to the scheme
`https`, the handler of `newHTTPProxy` to `http`. -/
theorem proxy_scheme_witness :
    sampleTarget.Scheme = "tcp" ∧
    ((sampleFactory.newHTTPProxy sampleTarget).2.Director
      (sampleFactory.newHTTPProxy sampleTarget).1 sampleRequest).URL.Scheme = "http" ∧
    ∃ handler,
      (sampleFactory.newHTTPSProxy (CreateTLSConfiguration completeFiles assembleAny)
        sampleTarget sampleEndpoint).2 = Built.returned (some handler) none ∧
      (handler.Director
        (sampleFactory.newHTTPSProxy (CreateTLSConfiguration completeFiles assembleAny)
          sampleTarget sampleEndpoint).1 sampleRequest).URL.Scheme = "https" :=
  ⟨rfl, proxy_scheme.1 sampleFactory sampleTarget sampleRequest,
    _, rfl,
    proxy_scheme.2 (CreateTLSConfiguration completeFiles assembleAny) sampleFactory
      sampleTarget sampleEndpoint _ sampleRequest rfl⟩

/-- C17, counterexample. The caller's URL `tcp://docker.example:2375/v1?x=1` has the
scheme `http` after `newHTTPProxy` and the scheme `https` after `newHTTPSProxy`, also when
`newHTTPSProxy` returns an error: the scheme does not have the value it had before the
call. -/
theorem proxy_url_counterexample :
    sampleTarget.Scheme = "tcp" ∧
    (sampleFactory.newHTTPProxy sampleTarget).1.Scheme = "http" ∧
    (sampleFactory.newHTTPProxy sampleTarget).1 ≠ sampleTarget ∧
    (sampleFactory.newHTTPSProxy (CreateTLSConfiguration missingKeyFiles assembleAny)
      sampleTarget sampleEndpoint).2 =
        Built.returned none (some "TLS material cannot be loaded") ∧
    (sampleFactory.newHTTPSProxy (CreateTLSConfiguration missingKeyFiles assembleAny)
      sampleTarget sampleEndpoint).1.Scheme = "https" ∧
    (sampleFactory.newHTTPSProxy (CreateTLSConfiguration missingKeyFiles assembleAny)
      sampleTarget sampleEndpoint).1 ≠ sampleTarget := by
  refine ⟨rfl, rfl, by decide, rfl, rfl, by decide⟩

/-- C17, amended. Building a proxy changes nothing of the caller's URL but its scheme: for
every target URL `u`, after `newHTTPProxy` returns, `u` has the scheme `http`, and after
`newHTTPSProxy` returns, with a handler or with an error, `u` has the scheme `https`; host,
path and raw query have the values they had before the call. -/
theorem proxy_url_frame :
    (∀ (factory : proxyFactory) (u : URL),
      (factory.newHTTPProxy u).1.Scheme = "http" ∧
      (factory.newHTTPProxy u).1.Host = u.Host ∧
      (factory.newHTTPProxy u).1.Path = u.Path ∧
      (factory.newHTTPProxy u).1.RawQuery = u.RawQuery) ∧
    (∀ (createTLS : String → String → String → Option TLSConfig × Option GoError)
        (factory : proxyFactory) (u : URL) (endpoint : Endpoint),
      (factory.newHTTPSProxy createTLS u endpoint).1.Scheme = "https" ∧
      (factory.newHTTPSProxy createTLS u endpoint).1.Host = u.Host ∧
      (factory.newHTTPSProxy createTLS u endpoint).1.Path = u.Path ∧
      (factory.newHTTPSProxy createTLS u endpoint).1.RawQuery = u.RawQuery) := by
  refine ⟨?_, ?_⟩
  · intro factory u
    rw [newHTTPProxy_url]
    exact ⟨rfl, rfl, rfl, rfl⟩
  · intro createTLS factory u endpoint
    rw [newHTTPSProxy_url]
    exact ⟨rfl, rfl, rfl, rfl⟩

/-! ## Further claims about `decorateVolumeList` -/

/-- The lookup returns the first control of the set that has the identifier. -/
theorem getResourceControlByResourceID_first (s : String) (rc : ResourceControl)
    (back : List ResourceControl) (hrc : rc.ResourceID = s) :
    ∀ front : List ResourceControl, (∀ c ∈ front, c.ResourceID ≠ s) →
      getResourceControlByResourceID s (front ++ rc :: back) = some rc := by
  intro front
  induction front with
  | nil =>
    intro _
    simp [getResourceControlByResourceID, hrc]
  | cons c rest ih =>
    intro hno
    have hc : ¬ s = c.ResourceID := fun e => hno c (List.mem_cons_self _ _) e.symm
    rw [List.cons_append, getResourceControlByResourceID, if_neg hc]
    exact ih (fun c' hc' => hno c' (List.mem_cons_of_mem _ hc'))

/-- A well-formed volume is well-formed, with the same identifier, after the loop. -/
theorem DecoratedHeap.identifier {rcs : List ResourceControl} {h h' : Heap} {vs : List Value}
    (hd : DecoratedHeap rcs h vs h') (r : Ref) (fields : Obj) (s : String)
    (hr : h[r]? = some fields) (hs : fields volumeIdentifier = some (Value.str s)) :
    ∃ fields', h'[r]? = some fields' ∧ fields' volumeIdentifier = some (Value.str s) := by
  obtain ⟨fields', hr', hkeys⟩ := hd.otherKeys r fields hr
  refine ⟨fields', hr', ?_⟩
  rw [hkeys volumeIdentifier (by decide)]
  exact hs

theorem DecoratedHeap.wellFormed {rcs : List ResourceControl} {h h' : Heap} {vs : List Value}
    (hd : DecoratedHeap rcs h vs h') {v : Value} (hv : WellFormedVolume h v) :
    WellFormedVolume h' v := by
  obtain ⟨r, fields, s, rfl, hr, hs⟩ := hv
  obtain ⟨fields', hr', hs'⟩ := hd.identifier r fields s hr hs
  exact ⟨r, fields', s, rfl, hr', hs'⟩

/-- C14. When several controls of the set have the identifier of a volume, the volume is
decorated with the metadata of the first of them in the order of the set: if the set is
`front ++ rc :: back`, no control of `front` has the identifier and `rc` has it, the
lookup returns `rc` and the volume gets the ID, users and teams of `rc`, whatever controls
follow in `back`. -/
theorem decorateVolumeList_first_match (h : Heap) (vs : List Value)
    (front : List ResourceControl) (rc : ResourceControl) (back : List ResourceControl)
    (hwf : ∀ v ∈ vs, WellFormedVolume h v) :
    ∃ h', decorateVolumeList h vs (front ++ rc :: back) =
        (h', Outcome.returned (some vs) none) ∧
      ∀ (r : Ref) (fields : Obj) (s : String),
        Value.mapRef r ∈ vs → h[r]? = some fields →
        fields volumeIdentifier = some (Value.str s) →
        (∀ c ∈ front, c.ResourceID ≠ s) → rc.ResourceID = s →
        getResourceControlByResourceID s (front ++ rc :: back) = some rc ∧
        ∃ m, h'[r]? = some (fields.insert "Portainer" (Value.mapRef m)) ∧
          h'[m]? = some (Obj.empty.insert "ResourceControl"
            (Value.rcm { ID := rc.ID, Users := rc.Users, Teams := rc.Teams })) := by
  obtain ⟨h', hd, heq⟩ := decorateVolumeList_wellFormed (front ++ rc :: back) h vs hwf
  refine ⟨h', heq, ?_⟩
  intro r fields s hin hr hs hno hrc
  have hfirst := getResourceControlByResourceID_first s rc back hrc front hno
  refine ⟨hfirst, ?_⟩
  obtain ⟨m, _, hobj, hmeta⟩ := hd.1 r fields rc hin hr
    (by rw [matchingControl_of_identifier _ fields s hs]; exact hfirst)
  exact ⟨m, hobj, hmeta⟩

/-- C14, witness: two controls for `v1`, with the IDs 7 and 8; the volume `v1` of the
scenario gets the metadata of the control with the ID 7. -/
theorem decorateVolumeList_first_match_witness :
    duplicateControls = [] ++ scenarioControl ::
      [{ ID := 8, ResourceID := "v1", Users := [3], Teams := [4] }] ∧
    (∀ v ∈ scenarioVolumes, WellFormedVolume scenarioHeap v) ∧
    (decorateVolumeList scenarioHeap scenarioVolumes duplicateControls).2 =
      Outcome.returned (some scenarioVolumes) none ∧
    (∀ k, ((decorateVolumeList scenarioHeap scenarioVolumes duplicateControls).1[2]?).bind
        (fun o => o k) =
      Obj.ofList [("ResourceControl",
        Value.rcm { ID := 7, Users := [1, 2], Teams := [] })] k) ∧
    ∃ h', decorateVolumeList scenarioHeap scenarioVolumes duplicateControls =
        (h', Outcome.returned (some scenarioVolumes) none) ∧
      ∃ m, h'[0]? = some ((Obj.ofList [("Name", Value.str "v1")]).insert "Portainer"
          (Value.mapRef m)) ∧
        h'[m]? = some (Obj.empty.insert "ResourceControl"
          (Value.rcm { ID := 7, Users := [1, 2], Teams := [] })) := by
  refine ⟨rfl, scenarioVolumes_wellFormed, rfl, fun k => rfl, ?_⟩
  obtain ⟨h', heq, hall⟩ := decorateVolumeList_first_match scenarioHeap scenarioVolumes []
    scenarioControl [{ ID := 8, ResourceID := "v1", Users := [3], Teams := [4] }]
    scenarioVolumes_wellFormed
  refine ⟨h', heq, ?_⟩
  exact (hall 0 (Obj.ofList [("Name", Value.str "v1")]) "v1" (by simp [scenarioVolumes]) rfl rfl
    (by simp) rfl).2

/-- C18. For every volume list whose elements are maps with a string identifier, and every
control set, `decorateVolumeList` ends without panic and without error; the list it
returns has as many elements as the input list, and its element at each position is a map
carrying the identifier of the input element at that position. -/
theorem decorateVolumeList_total (h : Heap) (vs : List Value) (rcs : List ResourceControl)
    (hwf : ∀ v ∈ vs, WellFormedVolume h v) :
    (decorateVolumeList h vs rcs).2 ≠ Outcome.panicked ∧
    ∃ h' ds, decorateVolumeList h vs rcs = (h', Outcome.returned (some ds) none) ∧
      ds.length = vs.length ∧
      ∀ (i : Nat) (r : Ref) (fields : Obj) (s : String),
        vs[i]? = some (Value.mapRef r) → h[r]? = some fields →
        fields volumeIdentifier = some (Value.str s) →
        ∃ (r' : Ref) (fields' : Obj), ds[i]? = some (Value.mapRef r') ∧
          h'[r']? = some fields' ∧ fields' volumeIdentifier = some (Value.str s) := by
  obtain ⟨h', hd, heq⟩ := decorateVolumeList_wellFormed rcs h vs hwf
  refine ⟨?_, h', vs, heq, rfl, ?_⟩
  · rw [heq]
    intro hp
    cases hp
  · intro i r fields s hi hr hs
    obtain ⟨fields', hr', hs'⟩ := hd.identifier r fields s hr hs
    exact ⟨r, fields', hi, hr', hs'⟩

/-- C18, witness: the two volumes of the spec's scenario. -/
theorem decorateVolumeList_total_witness :
    (∀ v ∈ scenarioVolumes, WellFormedVolume scenarioHeap v) ∧
    (decorateVolumeList scenarioHeap scenarioVolumes [scenarioControl]).2 ≠
      Outcome.panicked ∧
    ∃ h' ds, decorateVolumeList scenarioHeap scenarioVolumes [scenarioControl] =
        (h', Outcome.returned (some ds) none) ∧
      ds.length = scenarioVolumes.length ∧
      ∀ (i : Nat) (r : Ref) (fields : Obj) (s : String),
        scenarioVolumes[i]? = some (Value.mapRef r) → scenarioHeap[r]? = some fields →
        fields volumeIdentifier = some (Value.str s) →
        ∃ (r' : Ref) (fields' : Obj), ds[i]? = some (Value.mapRef r') ∧
          h'[r']? = some fields' ∧ fields' volumeIdentifier = some (Value.str s) :=
  ⟨scenarioVolumes_wellFormed,
    decorateVolumeList_total scenarioHeap scenarioVolumes [scenarioControl]
      scenarioVolumes_wellFormed⟩

theorem Obj.insert_same (o : Obj) (k : String) (v : Value) : (o.insert k v) k = some v := by
  unfold Obj.insert
  simp

/-- C19. For every well-formed volume list `vs` and control set, if `decorateVolumeList`
returns the list `ds`, then `decorateVolumeList` applied to `ds` with the same control set
succeeds and returns `ds` again. The second call leaves every object as the first call left
it, except that a decorated volume has its `"Portainer"` key bound to a newly allocated
metadata map with the same content as the one it was bound to; the earlier metadata map is
itself unchanged. -/
theorem decorateVolumeList_idempotent (h : Heap) (vs : List Value)
    (rcs : List ResourceControl) (hwf : ∀ v ∈ vs, WellFormedVolume h v)
    (h' : Heap) (ds : List Value)
    (hfirst : decorateVolumeList h vs rcs = (h', Outcome.returned (some ds) none)) :
    ∃ h'', decorateVolumeList h' ds rcs = (h'', Outcome.returned (some ds) none) ∧
      ∀ (r : Ref) (fields' : Obj), h'[r]? = some fields' →
        ∃ fields'' : Obj, h''[r]? = some fields'' ∧
          (∀ k, k ≠ "Portainer" → fields'' k = fields' k) ∧
          (fields'' = fields' ∨
            ∃ (m1 m2 : Ref) (metadata : Obj),
              fields' "Portainer" = some (Value.mapRef m1) ∧
              fields'' "Portainer" = some (Value.mapRef m2) ∧
              h'[m1]? = some metadata ∧ h''[m1]? = some metadata ∧
              h''[m2]? = some metadata) := by
  obtain ⟨h0, hd, heq⟩ := decorateVolumeList_wellFormed rcs h vs hwf
  rw [heq] at hfirst
  have hh : h0 = h' := congrArg Prod.fst hfirst
  have hds : vs = ds := by
    have h2 := congrArg Prod.snd hfirst
    injection h2 with h3 _
    injection h3
  subst hh
  subst hds
  have hwf' : ∀ v ∈ vs, WellFormedVolume h0 v := fun v hv => hd.wellFormed (hwf v hv)
  obtain ⟨h'', hd2, heq2⟩ := decorateVolumeList_wellFormed rcs h0 vs hwf'
  refine ⟨h'', heq2, ?_⟩
  intro r fields' hr'
  by_cases hin : Value.mapRef r ∈ vs
  · cases hm : matchingControl rcs fields' with
    | none =>
      exact ⟨fields', hd2.2.1 r fields' hr' (Or.inr hm), fun _ _ => rfl, Or.inl rfl⟩
    | some rc =>
      obtain ⟨m2, _, hobj2, hmeta2⟩ := hd2.1 r fields' rc hin hr' hm
      obtain ⟨r0, fields, s, hv, hr, hs⟩ := hwf _ hin
      have hr0 : r = r0 := by injection hv
      subst hr0
      cases hm0 : matchingControl rcs fields with
      | none =>
        have hsame := hd.2.1 r fields hr (Or.inr hm0)
        rw [hr'] at hsame
        have hff : fields' = fields := by injection hsame
        rw [hff, hm0] at hm
        cases hm
      | some rc0 =>
        obtain ⟨m1, _, hobj1, hmeta1⟩ := hd.1 r fields rc0 hin hr hm0
        rw [hr'] at hobj1
        have hff : fields' = fields.insert portainerKey (Value.mapRef m1) := by
          injection hobj1
        have hrc : rc0 = rc := by
          rw [hff, matchingControl_insert, hm0] at hm
          injection hm
        subst hrc
        have hkeep := hd2.2.1 m1 (metadataObject rc0) hmeta1
          (Or.inr (matchingControl_metadataObject rcs rc0))
        refine ⟨_, hobj2, fun k hk => Obj.insert_other fields' portainerKey k _ hk,
          Or.inr ⟨m1, m2, metadataObject rc0, ?_, Obj.insert_same _ _ _, hmeta1, hkeep, hmeta2⟩⟩
        rw [hff]
        exact Obj.insert_same _ _ _
  · exact ⟨fields', hd2.2.1 r fields' hr' (Or.inl hin), fun _ _ => rfl, Or.inl rfl⟩

/-- C19, witness: decorating the result of the spec's scenario a second time. -/
theorem decorateVolumeList_idempotent_witness :
    (∀ v ∈ scenarioVolumes, WellFormedVolume scenarioHeap v) ∧
    decorateVolumeList scenarioHeap scenarioVolumes [scenarioControl] =
      ((decorateVolumeList scenarioHeap scenarioVolumes [scenarioControl]).1,
        Outcome.returned (some scenarioVolumes) none) ∧
    ∃ h'', decorateVolumeList
          (decorateVolumeList scenarioHeap scenarioVolumes [scenarioControl]).1
          scenarioVolumes [scenarioControl] =
        (h'', Outcome.returned (some scenarioVolumes) none) ∧
      ∀ (r : Ref) (fields' : Obj),
        (decorateVolumeList scenarioHeap scenarioVolumes [scenarioControl]).1[r]? =
          some fields' →
        ∃ fields'' : Obj, h''[r]? = some fields'' ∧
          (∀ k, k ≠ "Portainer" → fields'' k = fields' k) ∧
          (fields'' = fields' ∨
            ∃ (m1 m2 : Ref) (metadata : Obj),
              fields' "Portainer" = some (Value.mapRef m1) ∧
              fields'' "Portainer" = some (Value.mapRef m2) ∧
              (decorateVolumeList scenarioHeap scenarioVolumes [scenarioControl]).1[m1]? =
                some metadata ∧
              h''[m1]? = some metadata ∧ h''[m2]? = some metadata) :=
  have hfirst : decorateVolumeList scenarioHeap scenarioVolumes [scenarioControl] =
      ((decorateVolumeList scenarioHeap scenarioVolumes [scenarioControl]).1,
        Outcome.returned (some scenarioVolumes) none) := Prod.ext rfl rfl
  ⟨scenarioVolumes_wellFormed, hfirst,
    decorateVolumeList_idempotent scenarioHeap scenarioVolumes [scenarioControl]
      scenarioVolumes_wellFormed _ _ hfirst⟩

end Portainer
